import Mathlib

/-!
# Verification of the bumble core host-side Bluetooth stack

Shallow embedding, in Lean 4, of the parts of the `bumble` Python repository
that the checked claims are about:

* `bumble/sdp.py` — the SDP `DataElement` codec and the SDP server's
  service-matching rule;
* `bumble/hci.py` — the generic HCI packet framing codec and the ACL data
  packet assembler;
* `bumble/l2cap.py` — the LE Credit-Based channel state machine and the
  classic channel's Enhanced Retransmission Mode segmentation/reassembly;
* `bumble/device.py` — the advertising auto-restart logic in
  `Device.on_disconnection`;
* `bumble/link.py` — the local link simulator's send operations.

Byte strings are modelled as `List Nat` whose elements are intended to be
`< 256`; where Python's `struct.pack` enforces a range (raising on overflow),
the embedded serializer either checks the range or the theorem carries the
range as a well-formedness hypothesis.  Fallible Python code (raising
exceptions) is modelled with `Option`.
-/

namespace Bumble

/-- `data[i:]` for a Python bytes object: `List.drop`. -/
def pyDrop (i : Nat) (l : List Nat) : List Nat := l.drop i

/-- `data[:j]` for a Python bytes object: `List.take`. -/
def pyTake (j : Nat) (l : List Nat) : List Nat := l.take j

/-- `data[i:j]` for a Python bytes object (with non-negative indices). -/
def pySlice (i j : Nat) (l : List Nat) : List Nat := (l.drop i).take (j - i)

/-- Big-endian interpretation of a byte list as an unsigned integer
(`struct.unpack` with formats `>H`, `>I`, `>Q`, or a single byte). -/
def beToNat (l : List Nat) : Nat := l.foldl (fun acc b => acc * 256 + b) 0

/-- Big-endian two's-complement interpretation of a byte list as a signed
integer (`struct.unpack` with formats `b`, `>h`, `>i`, `>q`). -/
def beToInt (l : List Nat) : Int :=
  let u := beToNat l
  let m := 2 ^ (8 * l.length)
  if u < m / 2 then (u : Int) else (u : Int) - (m : Int)

/-- Big-endian encoding of an unsigned integer on `width` bytes
(`struct.pack` with formats `B`, `>H`, `>I`, `>Q`); `none` when the value is
out of range, as `struct.pack` raises there. -/
def natToBe (width : Nat) (v : Nat) : Option (List Nat) :=
  if v < 2 ^ (8 * width) then
    some ((List.range width).reverse.map (fun i => v / 256 ^ i % 256))
  else
    none

/-- Big-endian two's-complement encoding of a signed integer on `width`
bytes (`struct.pack` with formats `b`, `>h`, `>i`, `>q`); `none` when the
value is out of range. -/
def intToBe (width : Nat) (v : Int) : Option (List Nat) :=
  if -(2 ^ (8 * width - 1) : Int) ≤ v ∧ v < (2 ^ (8 * width - 1) : Int) then
    natToBe width ((v % (2 ^ (8 * width) : Int)).toNat)
  else
    none

/-- Little-endian encoding of an unsigned integer on 2 bytes
(`struct.pack '<H'`); `none` when out of range. -/
def natToLe16 (v : Nat) : Option (List Nat) :=
  if v < 65536 then some [v % 256, v / 256] else none

/-- Little-endian interpretation of 2 bytes (`struct.unpack '<H'`). -/
def leToNat16 (b0 b1 : Nat) : Nat := b0 + 256 * b1

end Bumble

namespace Bumble.Sdp

/-!
## SDP data elements (`bumble/sdp.py`, class `DataElement`)

A Python `DataElement` is a single class holding a numeric `type` tag, a
heterogeneous `value`, an optional `value_size` (only used by the integer
types) and an optional cache `bytes` of the wire form it was parsed from.
-/

-- The heterogeneous `value` attribute of a Python `DataElement` is modelled
-- as the sum `DEValue`.  The UUID arm holds the internal (`core.UUID`) byte
-- form.  `core.py` is not part of the sources; per the spec a UUID is a 16-,
-- 32- or 128-bit value, and `to_pdu_bytes` is its little-endian form, so the
-- internal form is kept here as the little-endian byte list handed to
-- `core.UUID.from_bytes`.
mutual

/-- The heterogeneous `value` attribute of a Python `DataElement`. -/
inductive DEValue : Type where
  | nil : DEValue
  | int : Int → DEValue
  | uuid : List Nat → DEValue
  | text : List Nat → DEValue
  | bool : Bool → DEValue
  | elements : List DataElement → DEValue
  | url : List Nat → DEValue
  | raw : List Nat → DEValue
  deriving Repr

/-- A Python `DataElement` object: `type`, `value`, `value_size`, and the
`bytes` cache set by the parser (and by `__bytes__` on first
serialization). -/
inductive DataElement : Type where
  | mk : Nat → DEValue → Option Nat → Option (List Nat) → DataElement
  deriving Repr

end

namespace DataElement

/-- `DataElement.NIL` -/
abbrev NIL : Nat := 0
/-- `DataElement.UNSIGNED_INTEGER` -/
abbrev UNSIGNED_INTEGER : Nat := 1
/-- `DataElement.SIGNED_INTEGER` -/
abbrev SIGNED_INTEGER : Nat := 2
/-- `DataElement.UUID` -/
abbrev UUID : Nat := 3
/-- `DataElement.TEXT_STRING` -/
abbrev TEXT_STRING : Nat := 4
/-- `DataElement.BOOLEAN` -/
abbrev BOOLEAN : Nat := 5
/-- `DataElement.SEQUENCE` -/
abbrev SEQUENCE : Nat := 6
/-- `DataElement.ALTERNATIVE` -/
abbrev ALTERNATIVE : Nat := 7
/-- `DataElement.URL` -/
abbrev URL : Nat := 8

/-- The `type` attribute. -/
def type : DataElement → Nat
  | .mk t _ _ _ => t

/-- The `value` attribute. -/
def value : DataElement → DEValue
  | .mk _ v _ _ => v

/-- The `value_size` attribute. -/
def valueSize : DataElement → Option Nat
  | .mk _ _ s _ => s

/-- The `bytes` cache attribute. -/
def cache : DataElement → Option (List Nat)
  | .mk _ _ _ b => b

end DataElement

/-- UTF-8 validity of a byte sequence, as accepted by Python's strict
`bytes.decode('utf8')` (rejecting overlong forms, surrogates, and values
above U+10FFFF).  Used by the URL constructor, which decodes its value. -/
def isValidUtf8 : List Nat → Bool
  | [] => true
  | b0 :: rest =>
    if b0 < 0x80 then isValidUtf8 rest
    else if 0xC2 ≤ b0 ∧ b0 ≤ 0xDF then
      match rest with
      | b1 :: rest' => decide (0x80 ≤ b1 ∧ b1 ≤ 0xBF) && isValidUtf8 rest'
      | _ => false
    else if 0xE0 ≤ b0 ∧ b0 ≤ 0xEF then
      match rest with
      | b1 :: b2 :: rest' =>
        let lo1 := if b0 = 0xE0 then 0xA0 else 0x80
        let hi1 := if b0 = 0xED then 0x9F else 0xBF
        decide (lo1 ≤ b1 ∧ b1 ≤ hi1) && decide (0x80 ≤ b2 ∧ b2 ≤ 0xBF) &&
          isValidUtf8 rest'
      | _ => false
    else if 0xF0 ≤ b0 ∧ b0 ≤ 0xF4 then
      match rest with
      | b1 :: b2 :: b3 :: rest' =>
        let lo1 := if b0 = 0xF0 then 0x90 else 0x80
        let hi1 := if b0 = 0xF4 then 0x8F else 0xBF
        decide (lo1 ≤ b1 ∧ b1 ≤ hi1) && decide (0x80 ≤ b2 ∧ b2 ≤ 0xBF) &&
          decide (0x80 ≤ b3 ∧ b3 ≤ 0xBF) && isValidUtf8 rest'
      | _ => false
    else false

/-- Modelled from the spec: `core.UUID.from_bytes` (file `bumble/core.py` is
not among the sources).  Per the spec a UUID is a 16-, 32- or 128-bit value,
so construction succeeds exactly on 2-, 4- or 16-byte input, and the UUID is
identified with those internal bytes. -/
def coreUuidFromBytes (b : List Nat) : Option (List Nat) :=
  if b.length = 2 ∨ b.length = 4 ∨ b.length = 16 then some b else none

/-- The header analysis at the top of `DataElement.from_bytes`: from the
first byte, the element type, the `value_offset` (number of length-descriptor
bytes after the header byte) and the `value_size`.  `none` where the Python
code would raise an `IndexError`/`struct.error` on truncated input. -/
def elementHeader : List Nat → Option (Nat × Nat × Nat)
  | [] => none
  | b0 :: rest =>
    let elementType := b0 / 8
    let sizeIndex := b0 % 8
    if sizeIndex = 0 then
      some (elementType, 0, if elementType = DataElement.NIL then 0 else 1)
    else if sizeIndex = 1 then some (elementType, 0, 2)
    else if sizeIndex = 2 then some (elementType, 0, 4)
    else if sizeIndex = 3 then some (elementType, 0, 8)
    else if sizeIndex = 4 then some (elementType, 0, 16)
    else if sizeIndex = 5 then
      match rest with
      | s0 :: _ => some (elementType, 1, s0)
      | _ => none
    else if sizeIndex = 6 then
      match rest with
      | s0 :: s1 :: _ => some (elementType, 2, s0 * 256 + s1)
      | _ => none
    else
      match rest with
      | s0 :: s1 :: s2 :: s3 :: _ =>
        some (elementType, 4, ((s0 * 256 + s1) * 256 + s2) * 256 + s3)
      | _ => none

/-- `DataElement.unsigned_integer_from_bytes`: big-endian decode, raising
(`none`) unless the data is 1, 2, 4 or 8 bytes. -/
def unsignedIntegerFromBytes (data : List Nat) : Option Nat :=
  if data.length = 1 ∨ data.length = 2 ∨ data.length = 4 ∨ data.length = 8 then
    some (beToNat data)
  else
    none

/-- `DataElement.signed_integer_from_bytes`: big-endian two's-complement
decode, raising (`none`) unless the data is 1, 2, 4 or 8 bytes. -/
def signedIntegerFromBytes (data : List Nat) : Option Int :=
  if data.length = 1 ∨ data.length = 2 ∨ data.length = 4 ∨ data.length = 8 then
    some (beToInt data)
  else
    none

mutual

/-- The `type_constructors` dispatch of `DataElement.from_bytes`: build the
`value` (and, for the integer types, the `value_size` attribute) from the
element type and the value bytes.  `none` where the Python constructor
raises. -/
def DataElement.constructValue (elementType : Nat) (valueData : List Nat)
    (valueSize : Nat) : Option (DEValue × Option Nat) :=
  if elementType = DataElement.NIL then
    some (.nil, none)
  else if elementType = DataElement.UNSIGNED_INTEGER then
    match unsignedIntegerFromBytes valueData with
    | none => none
    | some n => some (.int n, some valueSize)
  else if elementType = DataElement.SIGNED_INTEGER then
    match signedIntegerFromBytes valueData with
    | none => none
    | some n => some (.int n, some valueSize)
  else if elementType = DataElement.UUID then
    match coreUuidFromBytes valueData.reverse with
    | none => none
    | some u => some (.uuid u, none)
  else if elementType = DataElement.TEXT_STRING then
    some (.text valueData, none)
  else if elementType = DataElement.BOOLEAN then
    match valueData with
    | [] => none
    | v0 :: _ => some (.bool (v0 = 1), none)
  else if elementType = DataElement.SEQUENCE ∨
          elementType = DataElement.ALTERNATIVE then
    match DataElement.listFromBytes valueData with
    | none => none
    | some l => some (.elements l, none)
  else if elementType = DataElement.URL then
    if isValidUtf8 valueData then some (.url valueData, none) else none
  else
    some (.raw valueData, none)
termination_by 3 * valueData.length + 2
decreasing_by
  all_goals simp_wf

/-- `DataElement.from_bytes`: parse one data element from the front of
`data`, keeping a copy of the consumed bytes in the cache attribute so that
re-serialization replays them exactly.  `none` where the Python code
raises. -/
def DataElement.fromBytes : List Nat → Option DataElement
  | [] => none
  | b0 :: rest =>
    match elementHeader (b0 :: rest) with
    | none => none
    | some (elementType, valueOffset, valueSize) =>
      (DataElement.constructValue elementType
          ((rest.drop valueOffset).take valueSize) valueSize).map
        (fun p => .mk elementType p.1 p.2
          (some ((b0 :: rest).take (1 + valueOffset + valueSize))))
termination_by data => 3 * data.length
decreasing_by
  all_goals simp_wf
  all_goals omega

/-- `DataElement.list_from_bytes`: parse a concatenation of data elements.
The Python loop advances by `len(bytes(element))`, which is the length of
the cache slice `data[:1 + value_offset + value_size]`, i.e.
`min data.length (1 + valueOffset + valueSize)`. -/
def DataElement.listFromBytes : List Nat → Option (List DataElement)
  | [] => some []
  | b0 :: rest =>
    match DataElement.fromBytes (b0 :: rest) with
    | none => none
    | some element =>
      match elementHeader (b0 :: rest) with
      | none => none
      | some (_, valueOffset, valueSize) =>
        let consumed :=
          min (b0 :: rest).length (1 + valueOffset + valueSize)
        match DataElement.listFromBytes ((b0 :: rest).drop consumed) with
        | none => none
        | some l => some (element :: l)
termination_by data => 3 * data.length + 1
decreasing_by
  all_goals simp_wf

end

/-- The `size_index` / `size_bytes` selection in the second half of
`DataElement.__bytes__`, as a function of the element type and of the length
of the value bytes.  `none` where the Python code raises
(`InvalidArgumentError` for a bad size, `RuntimeError` for an unsupported
type). -/
def sizeDescriptor (t : Nat) (size : Nat) : Option (Nat × List Nat) :=
  if t = DataElement.NIL then
    if size ≠ 0 then none else some (0, [])
  else if t = DataElement.UNSIGNED_INTEGER ∨ t = DataElement.SIGNED_INTEGER ∨
          t = DataElement.UUID then
    if size ≤ 1 then some (0, [])
    else if size = 2 then some (1, [])
    else if size = 4 then some (2, [])
    else if size = 8 then some (3, [])
    else if size = 16 then some (4, [])
    else none
  else if t = DataElement.TEXT_STRING ∨ t = DataElement.SEQUENCE ∨
          t = DataElement.ALTERNATIVE ∨ t = DataElement.URL then
    if size ≤ 0xFF then some (5, [size])
    else if size ≤ 0xFFFF then some (6, [size / 256, size % 256])
    else if size ≤ 0xFFFFFFFF then
      some (7, [size / 256 ^ 3 % 256, size / 256 ^ 2 % 256,
                size / 256 % 256, size % 256])
    else none
  else if t = DataElement.BOOLEAN then
    if size ≠ 1 then none else some (0, [])
  else none

mutual

/-- `DataElement.__bytes__`: return the cache when it is non-empty (the
Python code tests `if self.bytes:`, so an empty cache falls through),
otherwise compute the wire form from the type, value and value size.
`none` where the Python code raises. -/
def DataElement.toBytes : DataElement → Option (List Nat)
  | .mk t v vs cached =>
    match cached with
    | some (c0 :: cs) => some (c0 :: cs)
    | _ =>
      let dataOpt : Option (List Nat) :=
        if t = DataElement.NIL then some []
        else if t = DataElement.UNSIGNED_INTEGER then
          match v, vs with
          | .int n, some w =>
            if n < 0 then none
            else if w = 1 ∨ w = 2 ∨ w = 4 ∨ w = 8 then natToBe w n.toNat
            else none
          | _, _ => none
        else if t = DataElement.SIGNED_INTEGER then
          match v, vs with
          | .int n, some w =>
            if w = 1 ∨ w = 2 ∨ w = 4 ∨ w = 8 then intToBe w n else none
          | _, _ => none
        else if t = DataElement.UUID then
          match v with
          | .uuid u => some u.reverse
          | _ => none
        else if t = DataElement.URL then
          match v with
          | .url s => some s
          | _ => none
        else if t = DataElement.BOOLEAN then
          match v with
          | .bool b => some [if b then 1 else 0]
          | _ => none
        else if t = DataElement.SEQUENCE ∨ t = DataElement.ALTERNATIVE then
          match v with
          | .elements l => DataElement.elementsToBytes l
          | _ => none
        else
          -- `data = self.value`: TEXT_STRING and unknown types carry raw bytes
          match v with
          | .text s => some s
          | .raw s => some s
          | _ => none
      match dataOpt with
      | none => none
      | some data =>
        match sizeDescriptor t data.length with
        | none => none
        | some (sizeIndex, sizeBytes) =>
          some ((t * 8 + sizeIndex) :: sizeBytes ++ data)

/-- `b''.join([bytes(element) for element in self.value])` for a sequence or
alternative value. -/
def DataElement.elementsToBytes : List DataElement → Option (List Nat)
  | [] => some []
  | e :: rest =>
    match DataElement.toBytes e with
    | none => none
    | some b =>
      match DataElement.elementsToBytes rest with
      | none => none
      | some bs => some (b ++ bs)

end

/-!
## SDP server service matching (`bumble/sdp.py`, classes `ServiceAttribute`
and `Server`)
-/

/-- A `ServiceAttribute`: an attribute id and a `DataElement` value. -/
structure ServiceAttribute where
  id : Nat
  value : DataElement

/-- Modelled from the spec: equality of `core.UUID` values (`bumble/core.py`
is not among the sources; the spec describes a UUID as a 16-, 32- or 128-bit
value with canonical conversion rules).  Here two UUIDs are equal when their
internal bytes are equal, and a UUID never equals a non-UUID Python value. -/
def deValueEqUuid : DEValue → DEValue → Bool
  | .uuid a, .uuid b => a == b
  | _, _ => false

mutual

/-- `ServiceAttribute.is_uuid_in_value`: the uuid matches the value either
directly (the value is a UUID element equal to it) or by recursing into the
elements of a SEQUENCE value.  Note that the Python code recurses into
`DataElement.SEQUENCE` values only. -/
def isUuidInValue (uuid : DEValue) (value : DataElement) : Bool :=
  match value with
  | .mk t v _ _ =>
    if t = DataElement.UUID then deValueEqUuid v uuid
    else if t = DataElement.SEQUENCE then
      match v with
      | .elements l => isUuidInElements uuid l
      | _ => false
    else false

/-- The `for element in value.value` loop of `is_uuid_in_value`. -/
def isUuidInElements (uuid : DEValue) : List DataElement → Bool
  | [] => false
  | e :: rest => isUuidInValue uuid e || isUuidInElements uuid rest

end

/-- The record-level loop body of `Server.match_services`: the Python code
marks the record as matching (and breaks) as soon as one element of the
search pattern is found in some attribute value. -/
def serviceMatches (searchPattern : List DataElement)
    (service : List ServiceAttribute) : Bool :=
  searchPattern.any (fun uuid =>
    service.any (fun attr => isUuidInValue uuid.value attr.value))

/-- `Server.match_services`: filter the service records (a dict iterated in
insertion order, modelled as an association list from 32-bit record handles
to services) by `serviceMatches`. -/
def matchServices (serviceRecords : List (Nat × List ServiceAttribute))
    (searchPattern : List DataElement) :
    List (Nat × List ServiceAttribute) :=
  serviceRecords.filter (fun entry => serviceMatches searchPattern entry.2)

mutual

/-- The matching rule in the words of the claim (for comparison with
`isUuidInValue`, which is translated from the code): the search for a UUID
inside an attribute value recurses into both SEQUENCE and ALTERNATIVE
container values. -/
def specUuidInValue (uuid : DEValue) (value : DataElement) : Bool :=
  match value with
  | .mk t v _ _ =>
    if t = DataElement.UUID then deValueEqUuid v uuid
    else if t = DataElement.SEQUENCE ∨ t = DataElement.ALTERNATIVE then
      match v with
      | .elements l => specUuidInElements uuid l
      | _ => false
    else false

/-- The element-list traversal of `specUuidInValue`. -/
def specUuidInElements (uuid : DEValue) : List DataElement → Bool
  | [] => false
  | e :: rest => specUuidInValue uuid e || specUuidInElements uuid rest

end

/-- Containment of a uuid in an attribute value as a relation, used to state
what `isUuidInValue` decides: the value is a UUID element equal to the uuid,
or the value is a SEQUENCE one of whose elements contains the uuid. -/
inductive UuidInValue (uuid : DEValue) : DataElement → Prop where
  | direct (v : DEValue) (vs : Option Nat) (c : Option (List Nat))
      (h : deValueEqUuid v uuid = true) :
      UuidInValue uuid (.mk DataElement.UUID v vs c)
  | inSequence (l : List DataElement) (vs : Option Nat)
      (c : Option (List Nat)) (e : DataElement) (he : e ∈ l)
      (h : UuidInValue uuid e) :
      UuidInValue uuid (.mk DataElement.SEQUENCE (.elements l) vs c)

end Bumble.Sdp

namespace Bumble.Hci

/-!
## HCI packets (`bumble/hci.py`)

The generic framing layer of the HCI codec: `HCI_Packet.from_bytes` and the
`__bytes__` methods of `HCI_Command`, `HCI_Event`, `HCI_AclDataPacket`,
`HCI_SynchronousDataPacket`, `HCI_IsoDataPacket` and `HCI_CustomPacket`.
Commands and events carry their parameters as opaque byte strings, and the
registered-class maps (`command_classes`, `event_classes`,
`subevent_classes` — several hundred generated classes) enter the model as
`ClassRegistry` parameters: a registered class re-parses the parameters
with `from_parameters`, which raises when they do not decode under the
class's field table, and on success caches the raw `parameters` and keeps
the dispatched code, so the framing fields survive the cycle exactly when
the re-parse accepts.  `HCI_Event.vendor_factories` is empty by default,
so a vendor event parses to the generic `HCI_Vendor_Event` carrying the
raw parameters.
-/

/-- `HCI_COMMAND_PACKET` -/
abbrev HCI_COMMAND_PACKET : Nat := 0x01
/-- `HCI_ACL_DATA_PACKET` -/
abbrev HCI_ACL_DATA_PACKET : Nat := 0x02
/-- `HCI_SYNCHRONOUS_DATA_PACKET` -/
abbrev HCI_SYNCHRONOUS_DATA_PACKET : Nat := 0x03
/-- `HCI_EVENT_PACKET` -/
abbrev HCI_EVENT_PACKET : Nat := 0x04
/-- `HCI_ISO_DATA_PACKET` -/
abbrev HCI_ISO_DATA_PACKET : Nat := 0x05
/-- `HCI_LE_META_EVENT` -/
abbrev HCI_LE_META_EVENT : Nat := 0x3E
/-- `HCI_VENDOR_EVENT` -/
abbrev HCI_VENDOR_EVENT : Nat := 0xFF
/-- `HCI_ACL_PB_FIRST_NON_FLUSHABLE` -/
abbrev HCI_ACL_PB_FIRST_NON_FLUSHABLE : Nat := 0
/-- `HCI_ACL_PB_CONTINUATION` -/
abbrev HCI_ACL_PB_CONTINUATION : Nat := 1
/-- `HCI_ACL_PB_FIRST_FLUSHABLE` -/
abbrev HCI_ACL_PB_FIRST_FLUSHABLE : Nat := 2
/-- `HCI_ACK_PB_COMPLETE_L2CAP` (the constant is spelled this way in the
source and is not referenced by `HCI_AclDataPacketAssembler.feed_packet`) -/
abbrev HCI_ACK_PB_COMPLETE_L2CAP : Nat := 3

/-- An HCI packet at the generic framing level: the tagged union
{Command, Event, AclData, SynchronousData, IsoData, Custom} with the fields
of the corresponding Python classes. -/
inductive HCI_Packet where
  | command (opCode : Nat) (parameters : List Nat)
  | event (eventCode : Nat) (parameters : List Nat)
  | aclData (connectionHandle pbFlag bcFlag dataTotalLength : Nat)
      (data : List Nat)
  | synchronousData (connectionHandle packetStatus dataTotalLength : Nat)
      (data : List Nat)
  | isoData (connectionHandle dataTotalLength : Nat)
      (isoSduFragment : List Nat) (pbFlag tsFlag : Nat)
      (timeStamp packetSequenceNumber isoSduLength packetStatusFlag :
        Option Nat)
  | custom (payload : List Nat)
  deriving Repr, DecidableEq

/-- A registry of `from_parameters` re-parsers, modelling
`HCI_Command.command_classes`, `HCI_Event.event_classes` and
`HCI_LE_Meta_Event.subevent_classes`: the source populates these with the
several hundred `@HCI_Command.command`, `@HCI_Event.registered` and
`@HCI_LE_Meta_Event.subevent` classes, so they enter the model as a
parameter.  `none` means no class is registered for the code (the generic
fallback instance is used); `some accepts` means a class is registered,
and `accepts parameters` tells whether its `from_parameters`
(`HCI_Object.dict_from_bytes` over the class's field table) accepts the
parameter bytes — it raises otherwise, and on success the instance keeps
the class's code and caches the raw parameter bytes unchanged
(`command.parameters = parameters` / `event.parameters = parameters`), so
the code and parameters of a successfully re-parsed packet are exactly
those of the generic framing object. -/
abbrev ClassRegistry := Nat → Option (List Nat → Bool)

/-- `HCI_Command.from_bytes`: read the opcode (`<H` little-endian) and the
one-byte parameter length, check it against the actual parameter bytes,
then look the opcode up in `command_classes`: no registered class gives a
generic `HCI_Command` carrying the raw parameters, a registered class
re-parses the parameters with `cls.from_parameters` and raises when they
do not decode under the class's field table. -/
def commandFromBytes (commandClasses : ClassRegistry)
    (packet : List Nat) : Option HCI_Packet :=
  match packet with
  | _ :: b1 :: b2 :: b3 :: rest =>
    if rest.length = b3 then
      match commandClasses (leToNat16 b1 b2) with
      | none => some (.command (leToNat16 b1 b2) rest)
      | some accepts =>
        if accepts rest then some (.command (leToNat16 b1 b2) rest)
        else none
    else none
  | _ => none

/-- `HCI_Event.from_bytes`: read the event code and the one-byte parameter
length and check it; then dispatch.  The LE meta event (code 0x3E) reads
`parameters[0]` as its subevent code (an `IndexError` on empty
parameters) and re-parses through `subevent_classes`, falling back to the
generic `HCI_LE_Meta_Event`; a vendor event (code 0xFF) tries the vendor
factories (empty by default) and falls back to the generic
`HCI_Vendor_Event` carrying the raw parameters; any other code re-parses
through `event_classes`, falling back to a generic `HCI_Event`.  A
registered class's `from_parameters` raises when the parameters do not
decode under its field table. -/
def eventFromBytes (eventClasses subeventClasses : ClassRegistry)
    (packet : List Nat) : Option HCI_Packet :=
  match packet with
  | _ :: c :: len :: rest =>
    if rest.length = len then
      if c = HCI_LE_META_EVENT then
        match rest with
        | [] => none
        | sub :: _ =>
          match subeventClasses sub with
          | none => some (.event c rest)
          | some accepts =>
            if accepts rest then some (.event c rest) else none
      else if c = HCI_VENDOR_EVENT then some (.event c rest)
      else
        match eventClasses c with
        | none => some (.event c rest)
        | some accepts =>
          if accepts rest then some (.event c rest) else none
    else none
  | _ => none

/-- `HCI_AclDataPacket.from_bytes`. -/
def aclDataFromBytes (packet : List Nat) : Option HCI_Packet :=
  match packet with
  | _ :: b1 :: b2 :: b3 :: b4 :: rest =>
    let h := leToNat16 b1 b2
    let dataTotalLength := leToNat16 b3 b4
    if rest.length = dataTotalLength then
      some (.aclData (h &&& 0xFFF) ((h >>> 12) &&& 3) ((h >>> 14) &&& 3)
        dataTotalLength rest)
    else none
  | _ => none

/-- `HCI_SynchronousDataPacket.from_bytes`. -/
def synchronousDataFromBytes (packet : List Nat) : Option HCI_Packet :=
  match packet with
  | _ :: b1 :: b2 :: b3 :: rest =>
    let h := leToNat16 b1 b2
    if rest.length = b3 then
      some (.synchronousData (h &&& 0xFFF) ((h >>> 12) &&& 3) b3 rest)
    else none
  | _ => none

/-- `HCI_IsoDataPacket.from_bytes`: after the 4 header bytes, an optional
4-byte timestamp when the ts bit is set, then an optional 4-byte SDU-info
block when `pb_flag & 0b01 == 0`, then the SDU fragment (no length check
against `data_total_length`). -/
def isoDataFromBytes (packet : List Nat) : Option HCI_Packet :=
  match packet with
  | _ :: b1 :: b2 :: b3 :: b4 :: rest =>
    let pduInfo := leToNat16 b1 b2
    let dataTotalLength := leToNat16 b3 b4
    let connectionHandle := pduInfo &&& 0xFFF
    let pbFlag := (pduInfo >>> 12) &&& 0b11
    let tsFlag := (pduInfo >>> 14) &&& 0b01
    let afterTs : Option (Option Nat × List Nat) :=
      if tsFlag ≠ 0 then
        match rest with
        | t0 :: t1 :: t2 :: t3 :: rest2 =>
          some (some (((t3 * 256 + t2) * 256 + t1) * 256 + t0), rest2)
        | _ => none
      else some (none, rest)
    match afterTs with
    | none => none
    | some (timeStamp, rest2) =>
      if pbFlag &&& 0b01 = 0 then
        match rest2 with
        | p0 :: p1 :: s0 :: s1 :: rest3 =>
          let sduInfo := leToNat16 s0 s1
          some (.isoData connectionHandle dataTotalLength rest3 pbFlag tsFlag
            timeStamp (some (leToNat16 p0 p1)) (some (sduInfo &&& 0xFFF))
            (some ((sduInfo >>> 15) &&& 1)))
        | _ => none
      else
        some (.isoData connectionHandle dataTotalLength rest2 pbFlag tsFlag
          timeStamp none none none)
  | _ => none

/-- `HCI_Packet.from_bytes`: dispatch on the packet-type byte; an unknown
type byte yields an `HCI_CustomPacket` carrying the raw packet.  The
command, event and subevent class registries are passed through. -/
def HCI_Packet.fromBytes (commandClasses eventClasses subeventClasses :
    ClassRegistry) (packet : List Nat) : Option HCI_Packet :=
  match packet with
  | [] => none
  | t :: _ =>
    if t = HCI_COMMAND_PACKET then commandFromBytes commandClasses packet
    else if t = HCI_ACL_DATA_PACKET then aclDataFromBytes packet
    else if t = HCI_SYNCHRONOUS_DATA_PACKET then
      synchronousDataFromBytes packet
    else if t = HCI_EVENT_PACKET then
      eventFromBytes eventClasses subeventClasses packet
    else if t = HCI_ISO_DATA_PACKET then isoDataFromBytes packet
    else some (.custom packet)

/-- The `HCI_Object` field-table parse of the registered
`HCI_LE_Set_Random_Address_Command` (opcode 0x2005,
`HCI_LE_SET_RANDOM_ADDRESS_COMMAND`): its single field is a 6-byte
`Address`, read with `Address.parse_address_with_type`, whose constructor
raises `InvalidArgumentError` (invalid address length) when fewer than 6
bytes are available; trailing bytes are ignored by the field parse. -/
def leSetRandomAddressAccepts (parameters : List Nat) : Bool :=
  decide (6 ≤ parameters.length)

/-- The slice of `HCI_Command.command_classes` exercised by the theorems
below: the class registered for opcode 0x2005. -/
def sampleCommandClasses : ClassRegistry :=
  fun opCode =>
    if opCode = 0x2005 then some leSetRandomAddressAccepts else none

/-- An empty class registry (no registered classes for any code). -/
def emptyClassRegistry : ClassRegistry := fun _ => none

/-- The `__bytes__` methods of the six packet classes.  `none` where
`struct.pack` (or `bytes([...])`) would raise on an out-of-range field. -/
def HCI_Packet.toBytes : HCI_Packet → Option (List Nat)
  | .command opCode parameters =>
    if opCode < 65536 ∧ parameters.length < 256 then
      some (HCI_COMMAND_PACKET :: opCode % 256 :: opCode / 256 ::
        parameters.length :: parameters)
    else none
  | .event eventCode parameters =>
    if eventCode < 256 ∧ parameters.length < 256 then
      some (HCI_EVENT_PACKET :: eventCode :: parameters.length :: parameters)
    else none
  | .aclData connectionHandle pbFlag bcFlag dataTotalLength data =>
    let h := (pbFlag <<< 12) ||| (bcFlag <<< 14) ||| connectionHandle
    if h < 65536 ∧ dataTotalLength < 65536 then
      some (HCI_ACL_DATA_PACKET :: h % 256 :: h / 256 ::
        dataTotalLength % 256 :: dataTotalLength / 256 :: data)
    else none
  | .synchronousData connectionHandle packetStatus dataTotalLength data =>
    let h := (packetStatus <<< 12) ||| connectionHandle
    if h < 65536 ∧ dataTotalLength < 256 then
      some (HCI_SYNCHRONOUS_DATA_PACKET :: h % 256 :: h / 256 ::
        dataTotalLength :: data)
    else none
  | .isoData connectionHandle dataTotalLength isoSduFragment pbFlag tsFlag
      timeStamp packetSequenceNumber isoSduLength packetStatusFlag =>
    let pduInfo := (tsFlag <<< 14) ||| (pbFlag <<< 12) ||| connectionHandle
    if pduInfo < 65536 ∧ dataTotalLength < 65536 then
      let tsBytes : Option (List Nat) :=
        match timeStamp with
        | some t =>
          if t < 2 ^ 32 then
            some [t % 256, t / 256 % 256, t / 256 ^ 2 % 256, t / 256 ^ 3]
          else none
        | none => some []
      let sduBytes : Option (List Nat) :=
        match packetSequenceNumber, isoSduLength, packetStatusFlag with
        | some p, some sl, some st =>
          let sduInfo := sl ||| (st <<< 15)
          if p < 65536 ∧ sduInfo < 65536 then
            some [p % 256, p / 256, sduInfo % 256, sduInfo / 256]
          else none
        | _, _, _ => some []
      match tsBytes, sduBytes with
      | some tsb, some sdb =>
        some (HCI_ISO_DATA_PACKET :: pduInfo % 256 :: pduInfo / 256 ::
          dataTotalLength % 256 :: dataTotalLength / 256 ::
          (tsb ++ sdb ++ isoSduFragment))
      | _, _ => none
    else none
  | .custom payload => some payload

/-- A list is a byte string: every element is below 256.  Python `bytes`
objects cannot hold anything else. -/
def isByteList (l : List Nat) : Prop := ∀ b ∈ l, b < 256

instance (l : List Nat) : Decidable (isByteList l) :=
  inferInstanceAs (Decidable (∀ b ∈ l, b < 256))

/-- Well-formedness of an HCI packet object: every field is within the range
of its wire encoding, lengths are consistent, and — for ISO packets — the
optional sub-headers are present exactly when serialization emits them and
parsing reads them (`ts_flag` is forced by `__post_init__` to reflect the
presence of `time_stamp`, and the SDU-info triple must match
`pb_flag & 0b01 == 0`).  A custom packet's type byte must not collide with
one of the five standard types. -/
def wellFormed : HCI_Packet → Prop
  | .command opCode parameters =>
    opCode < 65536 ∧ parameters.length < 256 ∧ isByteList parameters
  | .event eventCode parameters =>
    eventCode < 256 ∧ parameters.length < 256 ∧ isByteList parameters ∧
      (eventCode = HCI_LE_META_EVENT → parameters ≠ [])
  | .aclData connectionHandle pbFlag bcFlag dataTotalLength data =>
    connectionHandle < 4096 ∧ pbFlag < 4 ∧ bcFlag < 4 ∧
      dataTotalLength < 65536 ∧ data.length = dataTotalLength ∧
      isByteList data
  | .synchronousData connectionHandle packetStatus dataTotalLength data =>
    connectionHandle < 4096 ∧ packetStatus < 4 ∧ dataTotalLength < 256 ∧
      data.length = dataTotalLength ∧ isByteList data
  | .isoData connectionHandle dataTotalLength isoSduFragment pbFlag tsFlag
      timeStamp packetSequenceNumber isoSduLength packetStatusFlag =>
    connectionHandle < 4096 ∧ pbFlag < 4 ∧ dataTotalLength < 65536 ∧
      tsFlag = (if timeStamp.isSome then 1 else 0) ∧
      (∀ t, timeStamp = some t → t < 2 ^ 32) ∧
      (packetSequenceNumber.isSome ↔ pbFlag &&& 0b01 = 0) ∧
      (isoSduLength.isSome ↔ pbFlag &&& 0b01 = 0) ∧
      (packetStatusFlag.isSome ↔ pbFlag &&& 0b01 = 0) ∧
      (∀ p, packetSequenceNumber = some p → p < 65536) ∧
      (∀ sl, isoSduLength = some sl → sl < 4096) ∧
      (∀ st, packetStatusFlag = some st → st < 2) ∧
      isByteList isoSduFragment
  | .custom payload =>
    payload ≠ [] ∧ isByteList payload ∧
      (∀ t, payload.head? = some t →
        t ≠ HCI_COMMAND_PACKET ∧ t ≠ HCI_ACL_DATA_PACKET ∧
        t ≠ HCI_SYNCHRONOUS_DATA_PACKET ∧ t ≠ HCI_EVENT_PACKET ∧
        t ≠ HCI_ISO_DATA_PACKET)

/-!
## ACL packet reassembly (`bumble/hci.py`, class `HCI_AclDataPacketAssembler`)
-/

/-- The state of an `HCI_AclDataPacketAssembler`: the accumulation buffer
(`current_data`, `None` when idle) and the L2CAP PDU length read from the
first fragment. -/
structure HCI_AclDataPacketAssembler where
  currentData : Option (List Nat)
  l2capPduLength : Nat
  deriving Repr, DecidableEq

/-- `HCI_AclDataPacketAssembler.feed_packet`, fed with the `pb_flag` and
`data` of an `HCI_AclDataPacket`.  Returns the new state and the list of
complete L2CAP PDUs passed to the callback (empty or a singleton); `none`
models an uncaught exception: `struct.unpack_from` on a first fragment
shorter than 2 bytes, or the `assert self.current_data is not None` failing
when a packet whose `pb_flag` is neither a first-fragment value nor
continuation (i.e. 3) arrives while no reassembly is in progress. -/
def feedPacket (assembler : HCI_AclDataPacketAssembler) (pbFlag : Nat)
    (data : List Nat) :
    Option (HCI_AclDataPacketAssembler × List (List Nat)) :=
  let step1 : Option (Option (List Nat) × Nat × Bool) :=
    if pbFlag = HCI_ACL_PB_FIRST_NON_FLUSHABLE ∨
        pbFlag = HCI_ACL_PB_FIRST_FLUSHABLE then
      match data with
      | l0 :: l1 :: _ => some (some data, leToNat16 l0 l1, false)
      | _ => none
    else if pbFlag = HCI_ACL_PB_CONTINUATION then
      match assembler.currentData with
      | none => some (none, assembler.l2capPduLength, true)
      | some current => some (some (current ++ data),
          assembler.l2capPduLength, false)
    else
      some (assembler.currentData, assembler.l2capPduLength, false)
  match step1 with
  | none => none
  | some (_, _, true) => some (assembler, [])
  | some (none, _, false) => none
  | some (some currentData, l2capPduLength, false) =>
    if currentData.length = l2capPduLength + 4 then
      some (⟨none, 0⟩, [currentData])
    else if currentData.length > l2capPduLength + 4 then
      some (⟨none, 0⟩, [])
    else
      some (⟨some currentData, l2capPduLength⟩, [])

end Bumble.Hci

namespace Bumble.L2cap

/-!
## L2CAP (`bumble/l2cap.py`)
-/

/-- `TransmissionMode` values. -/
abbrev TransmissionMode.BASIC : Nat := 0x00
/-- `TransmissionMode.ENHANCED_RETRANSMISSION` -/
abbrev TransmissionMode.ENHANCED_RETRANSMISSION : Nat := 0x03

/-- `SupervisoryFunction.RR` -/
abbrev SupervisoryFunction.RR : Nat := 0x00

/-- `StandardControlField.SegmentationAndReassembly` values. -/
abbrev SAR.UNSEGMENTED : Nat := 0x00
/-- sar START -/
abbrev SAR.START : Nat := 0x01
/-- sar END -/
abbrev SAR.END : Nat := 0x02
/-- sar CONTINUATION -/
abbrev SAR.CONTINUATION : Nat := 0x03

/-- One step of the CRC used by `compute_fcs`: the source drives a 256-entry
table generated from the reflected polynomial 0xA001; one table lookup
equals eight shift-and-conditional-xor rounds on the low byte. -/
def crcShift (v : Nat) : Nat :=
  if v &&& 1 = 1 then (v >>> 1) ^^^ 0xA001 else v >>> 1

/-- The table entry `_CRC_TABLE[i]`: eight `crcShift` rounds on `i`. -/
def crcTableEntry (i : Nat) : Nat := crcShift^[8] i

/-- `compute_fcs`: table-driven CRC-16 (polynomial 0xA001, init 0) over the
buffer, packed `<H`. -/
def computeFcs (buffer : List Nat) : List Nat :=
  let crc := buffer.foldl
    (fun crc byte => ((crc >>> 8) &&& 0xFF) ^^^
      crcTableEntry ((crc &&& 0xFF) ^^^ byte)) 0
  [crc % 256, crc / 256]

/-- Parsed `StandardControlField` (I-frame or S-frame). -/
inductive StandardControlField where
  | iFrame (txSeq r reqSeq sar : Nat)
  | sFrame (s r reqSeq sar : Nat)
  deriving Repr, DecidableEq

/-- `StandardControlField.from_bytes` (the source passes `pdu[:2]`): bit 0
of the first byte selects the frame type.  Note the source quirks kept
verbatim: the I-frame's `r` is parsed with the same mask as `tx_seq`, and
`req_seq` is masked with `0b001111111` (7 bits). -/
def standardControlFieldFromBytes (data : List Nat) :
    Option StandardControlField :=
  match data with
  | d0 :: d1 :: _ =>
    if d0 &&& 0x01 = 0 then
      some (.iFrame ((d0 &&& 0b01111110) >>> 1) ((d0 &&& 0b01111110) >>> 1)
        (d1 &&& 0b001111111) ((d1 &&& 0b11000000) >>> 6))
    else
      some (.sFrame ((d0 &&& 0b00001100) >>> 2) ((d0 &&& 0b10000000) >>> 7)
        (d1 &&& 0b001111111) ((d1 &&& 0b11000000) >>> 6))
  | _ => none

/-- `IFrameStandardControlField.__bytes__` (frame type bit 0 = 0). -/
def iFrameControlBytes (txSeq r reqSeq sar : Nat) : List Nat :=
  [0 ||| (txSeq <<< 1) ||| (r <<< 7), reqSeq ||| (sar <<< 6)]

/-- `SFrameStandardControlField.__bytes__` (frame type bit 0 = 1). -/
def sFrameControlBytes (s r reqSeq sar : Nat) : List Nat :=
  [1 ||| (s <<< 2) ||| (r <<< 7), reqSeq ||| (sar <<< 6)]

/-- `data[i:-2]` for a Python bytes object. -/
def pySliceToEnd2 (i : Nat) (l : List Nat) : List Nat :=
  (l.take (l.length - 2)).drop i

/-- The fields of a `ClassicChannel` involved in Enhanced Retransmission
Mode data transfer.  `sinkSet` is whether `self.sink` is not `None`;
`responsePending` is whether `self.response` (a pending request future) is
truthy, which takes precedence in `on_pdu`. -/
structure ClassicChannel where
  transmissionMode : Nat
  peerMps : Nat
  txSeq : Nat
  reqSeq : Nat
  lastAckedSeq : Nat
  rxCreditsThreshold : Nat
  pendingSdu : List Nat
  sinkSet : Bool
  responsePending : Bool
  deriving Repr, DecidableEq

/-- The `while offset < len(data)` segmentation loop of
`ClassicChannel.write` in Enhanced Retransmission Mode: emit one I-frame of
at most `peer_mps` payload bytes per iteration, tagging the first as START,
the last as END and the rest as CONTINUATION, incrementing `tx_seq` mod 64.
Returns the final `tx_seq` and the `(pdu, with_fcs)` pairs passed to
`send_pdu`.  `none` when `peer_mps = 0`, where the Python loop would not
terminate. -/
def ermSegmentLoop (data : List Nat) (peerMps reqSeq : Nat)
    (offset txSeq : Nat) : Option (Nat × List (List Nat × Bool)) :=
  if h : offset < data.length then
    if hm : peerMps = 0 then none
    else
      let payload := (data.drop offset).take peerMps
      let newOffset := offset + payload.length
      let sar :=
        if offset = 0 then SAR.START
        else if newOffset = data.length then SAR.END
        else SAR.CONTINUATION
      match ermSegmentLoop data peerMps reqSeq newOffset ((txSeq + 1) % 64)
        with
      | none => none
      | some (txSeq', frames) =>
        some (txSeq', (iFrameControlBytes txSeq 0 reqSeq sar ++ payload,
          true) :: frames)
  else some (txSeq, [])
termination_by data.length - offset
decreasing_by
  simp_wf
  omega

/-- `ClassicChannel.write`: in Enhanced Retransmission Mode, send one
UNSEGMENTED I-frame when the SDU fits in `peer_mps`, otherwise segment;
in either case `last_acked_seq` is then set to `req_seq`.  In any other
mode, send the data as a single PDU without FCS.  Returns the new state and
the `(pdu, with_fcs)` pairs passed to `send_pdu`. -/
def ClassicChannel.write (ch : ClassicChannel) (data : List Nat) :
    Option (ClassicChannel × List (List Nat × Bool)) :=
  if ch.transmissionMode = TransmissionMode.ENHANCED_RETRANSMISSION then
    if data.length ≤ ch.peerMps then
      some ({ ch with
          txSeq := (ch.txSeq + 1) % 64
          lastAckedSeq := ch.reqSeq },
        [(iFrameControlBytes ch.txSeq 0 ch.reqSeq SAR.UNSEGMENTED ++ data,
          true)])
    else
      match ermSegmentLoop data ch.peerMps ch.reqSeq 0 ch.txSeq with
      | none => none
      | some (txSeq', frames) =>
        some ({ ch with
          txSeq := txSeq'
          lastAckedSeq := ch.reqSeq }, frames)
  else
    some (ch, [(data, false)])

/-- `ClassicChannel.on_pdu`: a pending request future consumes the PDU;
otherwise, with a sink in Enhanced Retransmission Mode, I-frames are
reassembled by their sar tag — a START frame contributes `pdu[4:-2]` (the
two control bytes plus a 2-byte SDU length are skipped, and the trailing
FCS dropped), an UNSEGMENTED or END frame contributes `pdu[2:-2]` and
delivers the pending SDU to the sink; CONTINUATION frames contribute
nothing.  An RR S-frame acknowledges once the un-acked count exceeds
`rx_credits_threshold`.  Returns (state, S-frames sent as `(pdu, with_fcs)`
pairs, SDUs delivered to the sink); `none` when
`StandardControlField.from_bytes` raises on a PDU shorter than 2 bytes. -/
def ClassicChannel.onPdu (ch : ClassicChannel) (pdu : List Nat) :
    Option (ClassicChannel × List (List Nat × Bool) × List (List Nat)) :=
  if ch.responsePending then
    some ({ ch with responsePending := false }, [], [])
  else if ch.sinkSet then
    if ch.transmissionMode = TransmissionMode.ENHANCED_RETRANSMISSION then
      match standardControlFieldFromBytes (pdu.take 2) with
      | none => none
      | some (.sFrame _ _ _ _) => some (ch, [], [])
      | some (.iFrame txSeq _ _ sar) =>
        let reqSeq' := txSeq + 1
        let pending1 := if sar = SAR.START then
            ch.pendingSdu ++ pySliceToEnd2 4 pdu
          else ch.pendingSdu
        let (pending2, sunk) :=
          if sar = SAR.UNSEGMENTED ∨ sar = SAR.END then
            (([] : List Nat), [pending1 ++ pySliceToEnd2 2 pdu])
          else (pending1, ([] : List (List Nat)))
        let txSeqAdjusted :=
          if txSeq < ch.lastAckedSeq then txSeq + 64 else txSeq
        if txSeqAdjusted - ch.lastAckedSeq > ch.rxCreditsThreshold then
          some ({ ch with
              reqSeq := reqSeq'
              pendingSdu := pending2
              lastAckedSeq := reqSeq' },
            [(sFrameControlBytes SupervisoryFunction.RR 0 reqSeq'
                SAR.UNSEGMENTED, true)], sunk)
        else
          some ({ ch with reqSeq := reqSeq', pendingSdu := pending2 },
            [], sunk)
    else
      some (ch, [], [pdu])
  else
    some (ch, [], [])

/-- The payload handed to a peer channel's `on_pdu` when a PDU is sent with
`send_pdu`: `L2CAP_PDU.__bytes__` appends `compute_fcs(payload)` when
`with_fcs` is set, and the receiving `ChannelManager.on_pdu` passes the
L2CAP payload through unchanged. -/
def relayPdu (sent : List Nat × Bool) : List Nat :=
  if sent.2 then sent.1 ++ computeFcs sent.1 else sent.1

/-- Feed a list of relayed PDUs to a channel in order, collecting the SDUs
delivered to its sink. -/
def ClassicChannel.onPdus (ch : ClassicChannel) (pdus : List (List Nat)) :
    Option (ClassicChannel × List (List Nat)) :=
  match pdus with
  | [] => some (ch, [])
  | pdu :: rest =>
    match ch.onPdu pdu with
    | none => none
    | some (ch', _, sunk) =>
      match ch'.onPdus rest with
      | none => none
      | some (ch'', sunkRest) => some (ch'', sunk ++ sunkRest)

/-!
## LE Credit-Based channels (`bumble/l2cap.py`, class `LeCreditBasedChannel`)
-/

/-- `LeCreditBasedChannel.State`. -/
inductive ChannelState where
  | INIT
  | CONNECTING
  | CONNECTED
  | DISCONNECTING
  | DISCONNECTED
  | CONNECTION_ERROR
  deriving Repr, DecidableEq

/-- The state of a `LeCreditBasedChannel`.  Credits are integers (Python
ints); `sinkSet` is whether `self.sink` is not `None`. -/
structure LeCreditBasedChannel where
  state : ChannelState
  mtu : Nat
  mps : Nat
  credits : Int
  peerMtu : Nat
  peerMps : Nat
  peerCredits : Int
  peerMaxCredits : Int
  peerCreditsThreshold : Int
  inSdu : Option (List Nat)
  inSduLength : Nat
  outQueue : List (List Nat)
  outSdu : Option (List Nat)
  drained : Bool
  sinkSet : Bool
  deriving Repr, DecidableEq

/-- The `LeCreditBasedChannel` constructor: `peer_max_credits` is the
initial `peer_credits` and the replenish threshold is its half. -/
def mkLeCreditBasedChannel (mtu mps : Nat) (credits : Int)
    (peerMtu peerMps : Nat) (peerCredits : Int) (connected : Bool)
    (sinkSet : Bool) : LeCreditBasedChannel :=
  { state := if connected then .CONNECTED else .INIT
    mtu := mtu
    mps := mps
    credits := credits
    peerMtu := peerMtu
    peerMps := peerMps
    peerCredits := peerCredits
    peerMaxCredits := peerCredits
    peerCreditsThreshold := peerCredits / 2
    inSdu := none
    inSduLength := 0
    outQueue := []
    outSdu := none
    drained := true
    sinkSet := sinkSet }

/-- The inner `while self.out_queue and len(payload) < self.peer_mtu` loop
of `process_output`: assemble the next SDU payload from the front of the
output queue, consuming at most `peer_mtu` bytes. -/
def assemblePayload (payload : List Nat) (queue : List (List Nat))
    (peerMtu : Nat) : List Nat × List (List Nat) :=
  match queue with
  | [] => (payload, [])
  | front :: queueRest =>
    if payload.length < peerMtu then
      let chunk := front.take (peerMtu - payload.length)
      let front' := front.drop chunk.length
      if front'.length = 0 then
        assemblePayload (payload ++ chunk) queueRest peerMtu
      else
        assemblePayload (payload ++ chunk) (front' :: queueRest) peerMtu
    else (payload, front :: queueRest)
termination_by (queue.map (fun b => b.length + 1)).sum
decreasing_by
  all_goals simp_wf
  all_goals try unfold front' chunk at *
  all_goals simp only [List.length_drop, List.length_take] at *
  all_goals omega

/-- `LeCreditBasedChannel.process_output`: while credits remain, send
MPS-sized K-frames of the current outbound SDU, one credit each; when the
current SDU is exhausted, assemble the next one from the queue, prefixing
its 2-byte little-endian length; when nothing is left, set the `drained`
event.  Returns the new state and the PDUs passed to `send_pdu`; `none`
models the `assert len(payload) != 0` failing (an SDU assembled from empty
buffers) or `struct.pack('<H', len(payload))` overflowing. -/
def processOutput (ch : LeCreditBasedChannel) :
    Option (LeCreditBasedChannel × List (List Nat)) :=
  if h : ch.credits > 0 then
    match hs : ch.outSdu with
    | some sdu =>
      let packet := sdu.take ch.peerMps
      let newOutSdu : Option (List Nat) :=
        if packet.length = sdu.length then none
        else some (sdu.drop packet.length)
      match processOutput { ch with
          credits := ch.credits - 1
          outSdu := newOutSdu } with
      | none => none
      | some (ch', pdus) => some (ch', packet :: pdus)
    | none =>
      match hq : ch.outQueue with
      | [] => some ({ ch with drained := true }, [])
      | _ :: _ =>
        let assembled := assemblePayload [] ch.outQueue ch.peerMtu
        if assembled.1.length = 0 then none
        else if assembled.1.length < 65536 then
          processOutput { ch with
            outQueue := assembled.2
            outSdu := some (assembled.1.length % 256 ::
              assembled.1.length / 256 :: assembled.1) }
        else none
  else some (ch, [])
termination_by 2 * ch.credits.toNat + (if ch.outSdu.isSome then 0 else 1)
decreasing_by
  all_goals simp_wf
  all_goals simp [hs]
  all_goals try split
  all_goals omega

/-- `LeCreditBasedChannel.write`: when the channel is not connected, log and
drop the data; otherwise queue it, clear `drained` and run
`process_output`.  Returns the new state and the PDUs sent. -/
def LeCreditBasedChannel.write (ch : LeCreditBasedChannel)
    (data : List Nat) : Option (LeCreditBasedChannel × List (List Nat)) :=
  if ch.state ≠ ChannelState.CONNECTED then some (ch, [])
  else
    processOutput { ch with
      outQueue := ch.outQueue ++ [data]
      drained := false }

/-- `LeCreditBasedChannel.on_credits`: add the received credits and try to
send queued data. -/
def LeCreditBasedChannel.onCredits (ch : LeCreditBasedChannel)
    (credits : Nat) : Option (LeCreditBasedChannel × List (List Nat)) :=
  processOutput { ch with credits := ch.credits + credits }

/-- The peer-credit management section of `on_pdu`: a received K-frame
consumes one peer credit (unless the peer is already out of credits, which
only logs a warning); at or below the threshold the credits are replenished
to `peer_max_credits` with an `L2CAP_LE_Flow_Control_Credit` frame.
Returns (state, credit values of flow-control frames sent). -/
def onPduCredits (ch : LeCreditBasedChannel) :
    LeCreditBasedChannel × List Int :=
  if ch.peerCredits = 0 then (ch, [])
  else if ch.peerCredits - 1 ≤ ch.peerCreditsThreshold then
    ({ ch with peerCredits := ch.peerMaxCredits },
      [ch.peerMaxCredits - (ch.peerCredits - 1)])
  else ({ ch with peerCredits := ch.peerCredits - 1 }, [])

/-- `self.in_sdu = pdu` / `self.in_sdu += pdu` in `on_pdu`: accumulate the
K-frame into the pending SDU buffer. -/
def sduAccumulate (ch : LeCreditBasedChannel) (pdu : List Nat) : List Nat :=
  match ch.inSdu with
  | none => pdu
  | some current => current ++ pdu

/-- The SDU length known after accumulating: once two bytes are buffered
the little-endian header announces it. -/
def sduLength (ch : LeCreditBasedChannel) (acc : List Nat) : Nat :=
  if ch.inSduLength = 0 then
    match acc with
    | a :: b :: _ => leToNat16 a b
    | _ => 0
  else ch.inSduLength

/-- The SDU-assembly section of `on_pdu`: K-frames accumulate into
`in_sdu`; the first two accumulated bytes announce the SDU length; on
`2 + length` accumulated bytes the SDU is delivered to the sink; on more,
the source logs an `SDU overflow` warning (with a `TODO: we should
disconnect` comment) and merely resets the buffer, leaving the state
unchanged.  Returns (state, SDUs delivered to the sink). -/
def onPduSdu (ch : LeCreditBasedChannel) (pdu : List Nat) :
    LeCreditBasedChannel × List (List Nat) :=
  if sduLength ch (sduAccumulate ch pdu) = 0 then
    ({ ch with inSdu := some (sduAccumulate ch pdu) }, [])
  else if (sduAccumulate ch pdu).length <
      2 + sduLength ch (sduAccumulate ch pdu) then
    ({ ch with
        inSdu := some (sduAccumulate ch pdu)
        inSduLength := sduLength ch (sduAccumulate ch pdu) }, [])
  else if (sduAccumulate ch pdu).length ≠
      2 + sduLength ch (sduAccumulate ch pdu) then
    ({ ch with
        inSdu := none
        inSduLength := 0 }, [])
  else
    ({ ch with
        inSdu := none
        inSduLength := 0 }, [(sduAccumulate ch pdu).drop 2])

/-- `LeCreditBasedChannel.on_pdu`: without a sink the PDU is dropped; a
non-CONNECTED state only logs a warning and processing continues.  Then
the peer-credit section (`onPduCredits`) runs, followed by the
SDU-assembly section (`onPduSdu`).  Returns (state, credit values of
flow-control frames sent, SDUs delivered to the sink). -/
def LeCreditBasedChannel.onPdu (ch : LeCreditBasedChannel)
    (pdu : List Nat) :
    LeCreditBasedChannel × List Int × List (List Nat) :=
  if ¬ ch.sinkSet then (ch, [], [])
  else
    ((onPduSdu (onPduCredits ch).1 pdu).1, (onPduCredits ch).2,
      (onPduSdu (onPduCredits ch).1 pdu).2)

/-- An operation on an `LeCreditBasedChannel`: an application write, an
inbound K-frame, or an `LE Flow Control Credit` frame (whose credit field
is a 16-bit value). -/
inductive ChannelOp where
  | write (data : List Nat)
  | onPdu (pdu : List Nat)
  | onCredits (credits : Nat)
  deriving Repr, DecidableEq

/-- Run one operation, discarding the outputs. -/
def execOp (ch : LeCreditBasedChannel) :
    ChannelOp → Option LeCreditBasedChannel
  | .write data => (ch.write data).map Prod.fst
  | .onPdu pdu => some (ch.onPdu pdu).1
  | .onCredits credits => (ch.onCredits credits).map Prod.fst

/-- Run a sequence of operations. -/
def execOps (ch : LeCreditBasedChannel) :
    List ChannelOp → Option LeCreditBasedChannel
  | [] => some ch
  | op :: rest =>
    match execOp ch op with
    | none => none
    | some ch' => execOps ch' rest

end Bumble.L2cap

namespace Bumble.Device

/-!
## Advertising auto-restart (`bumble/device.py`, `Device.on_disconnection`)
-/

/-- `HCI_CENTRAL_ROLE` (`hci.Role.CENTRAL`). -/
abbrev HCI_CENTRAL_ROLE : Nat := 0
/-- `HCI_PERIPHERAL_ROLE` (`hci.Role.PERIPHERAL`). -/
abbrev HCI_PERIPHERAL_ROLE : Nat := 1

/-- The slice of `Device` state that `on_disconnection` reads and writes:
the connection map (handle to role, all that the restart logic could
consult), and the advertising bookkeeping set by `start_advertising` /
`stop_advertising`. -/
structure Device where
  connections : List (Nat × Nat)
  advertising : Bool
  advertisingType : Option Nat
  autoRestartAdvertising : Bool
  deriving Repr, DecidableEq

/-- The `start_advertising` task scheduled by `on_disconnection`, with the
arguments the source passes: the current `advertising_type` and
`auto_restart = True`. -/
structure ScheduledRestart where
  advertisingType : Option Nat
  autoRestart : Bool
  deriving Repr, DecidableEq

/-- `Device.on_disconnection` (under `@with_connection_from_handle`, which
drops the event with an error if the handle is unknown): emit the event,
remove the connection from the map, clean up the GATT server, and — when
`auto_restart_advertising` is set — schedule `start_advertising` with the
same `advertising_type` and `auto_restart=True`.  The role of the
disconnected connection is not consulted.  Returns the new device state and
the scheduled restart task, if any. -/
def onDisconnection (device : Device) (connectionHandle : Nat)
    (reason : Nat) : Option (Device × Option ScheduledRestart) :=
  match device.connections.lookup connectionHandle with
  | none => none
  | some _role =>
    let device' := { device with
      connections :=
        device.connections.filter (fun c => c.1 ≠ connectionHandle) }
    if device.autoRestartAdvertising then
      some (device', some ⟨device.advertisingType, true⟩)
    else
      some (device', none)

end Bumble.Device

namespace Bumble.Link

/-!
## Local link simulator (`bumble/link.py`, class `LocalLink`)
-/

/-- Modelled from the spec: `core.PhysicalTransport` values
(`bumble/core.py` is not among the sources; the spec only distinguishes the
LE and BR/EDR transports). -/
abbrev PhysicalTransport.BR_EDR : Nat := 0
/-- The LE transport. -/
abbrev PhysicalTransport.LE : Nat := 1

/-- A virtual controller, identified by its random (LE) and public
(classic) addresses. -/
structure Controller where
  randomAddress : Nat
  publicAddress : Nat
  deriving Repr, DecidableEq

/-- A `LocalLink`: a set of controllers (modelled as a list in iteration
order). -/
structure LocalLink where
  controllers : List Controller
  deriving Repr, DecidableEq

/-- A delivery to a receiving controller's handler. -/
inductive LinkEvent where
  | advertisingData (target : Controller) (senderAddress : Nat)
      (data : List Nat)
  | aclData (target : Controller) (sourceAddress transport : Nat)
      (data : List Nat)
  | llControlPdu (target : Controller) (senderAddress packet : Nat)
  | lmpPacket (target : Controller) (senderAddress packet : Nat)
  deriving Repr, DecidableEq

/-- The effect of one `LocalLink` send operation, split by how the
receiving controller's handler is invoked: `immediate` deliveries run
synchronously inside the sender's call; `scheduled` deliveries are wrapped
in `asyncio.get_running_loop().call_soon(...)` and run later on the event
loop. -/
structure Dispatch where
  immediate : List LinkEvent
  scheduled : List LinkEvent
  deriving Repr, DecidableEq

/-- `LocalLink.find_controller`: the first controller whose random address
matches. -/
def findController (link : LocalLink) (address : Nat) : Option Controller :=
  link.controllers.find? (fun c => c.randomAddress = address)

/-- `LocalLink.find_classic_controller`: the first controller whose public
address matches. -/
def findClassicController (link : LocalLink) (address : Nat) :
    Option Controller :=
  link.controllers.find? (fun c => c.publicAddress = address)

/-- `LocalLink.send_advertising_data`: for every controller other than the
sender, call `controller.on_le_advertising_data(...)` directly — a
synchronous delivery inside the sender's call. -/
def sendAdvertisingData (link : LocalLink) (senderAddress : Nat)
    (data : List Nat) : Dispatch :=
  { immediate :=
      (link.controllers.filter
        (fun c => c.randomAddress ≠ senderAddress)).map
        (fun c => .advertisingData c senderAddress data)
    scheduled := [] }

/-- `LocalLink.send_acl_data`: look up the destination by LE or classic
address and schedule `destination.on_acl_data(...)` with `call_soon`; a
missing destination silently drops the data, an unknown transport raises a
`ValueError` (`none`). -/
def sendAclData (link : LocalLink) (sender : Controller)
    (destinationAddress transport : Nat) (data : List Nat) :
    Option Dispatch :=
  if transport = PhysicalTransport.LE then
    match findController link destinationAddress with
    | none => some { immediate := [], scheduled := [] }
    | some destination =>
      some { immediate := []
             scheduled := [.aclData destination sender.randomAddress
               transport data] }
  else if transport = PhysicalTransport.BR_EDR then
    match findClassicController link destinationAddress with
    | none => some { immediate := [], scheduled := [] }
    | some destination =>
      some { immediate := []
             scheduled := [.aclData destination sender.publicAddress
               transport data] }
  else none

/-- `LocalLink.send_ll_control_pdu`: raise (`none`) when the receiver is
unknown, otherwise schedule `receiver.on_ll_control_pdu(...)` with
`call_soon`. -/
def sendLlControlPdu (link : LocalLink) (sender : Controller)
    (receiverAddress packet : Nat) : Option Dispatch :=
  match findController link receiverAddress with
  | none => none
  | some receiver =>
    some { immediate := []
           scheduled := [.llControlPdu receiver sender.randomAddress
             packet] }

/-- `LocalLink.send_lmp_packet`: raise (`none`) when the receiver is
unknown, otherwise schedule `receiver.on_lmp_packet(...)` with
`call_soon`. -/
def sendLmpPacket (link : LocalLink) (sender : Controller)
    (receiverAddress packet : Nat) : Option Dispatch :=
  match findClassicController link receiverAddress with
  | none => none
  | some receiver =>
    some { immediate := []
           scheduled := [.lmpPacket receiver sender.publicAddress packet] }

end Bumble.Link

/-!
# Theorems
-/

namespace Bumble.Sdp

/-- The parser always records the bytes it consumed in the cache
attribute. -/
theorem fromBytes_sets_cache (B : List Nat) (e : DataElement)
    (h : DataElement.fromBytes B = some e) :
    ∃ t off sz, elementHeader B = some (t, off, sz) ∧
      e.cache = some (B.take (1 + off + sz)) := by
  match B with
  | [] => simp [DataElement.fromBytes] at h
  | b0 :: rest =>
    rw [DataElement.fromBytes] at h
    match hh : elementHeader (b0 :: rest) with
    | none => rw [hh] at h; simp at h
    | some (t, off, sz) =>
      rw [hh] at h
      simp only [Option.map_eq_some'] at h
      obtain ⟨p, hp, rfl⟩ := h
      exact ⟨t, off, sz, rfl, rfl⟩

/-- A data element whose cache is non-empty serializes to the cache. -/
theorem toBytes_of_cache (e : DataElement) (c0 : Nat) (cs : List Nat)
    (h : e.cache = some (c0 :: cs)) :
    DataElement.toBytes e = some (c0 :: cs) := by
  match e with
  | .mk t v vs cached =>
    simp only [DataElement.cache] at h
    subst h
    rw [DataElement.toBytes]

/-- C1: for every byte string `B` that is the complete encoding of a single
SDP data element (its header parses, its length is exactly the element's
span, and `DataElement.from_bytes` accepts it), re-serializing the parsed
element with `__bytes__` yields exactly `B`, byte for byte — including
non-canonical encodings — because the parser caches the original bytes. -/
theorem c1_data_element_roundtrip (B : List Nat) (e : DataElement)
    (t off sz : Nat)
    (hhdr : elementHeader B = some (t, off, sz))
    (hlen : B.length = 1 + off + sz)
    (hparse : DataElement.fromBytes B = some e) :
    DataElement.toBytes e = some B := by
  obtain ⟨t', off', sz', hhdr', hcache⟩ := fromBytes_sets_cache B e hparse
  rw [hhdr] at hhdr'
  obtain ⟨rfl, rfl, rfl⟩ : t = t' ∧ off = off' ∧ sz = sz' := by
    have := Option.some.inj hhdr'
    exact ⟨congrArg Prod.fst this, congrArg (fun p => p.2.1) this,
      congrArg (fun p => p.2.2) this⟩
  rw [← hlen, List.take_length] at hcache
  match B, hhdr with
  | b0 :: rest, _ => exact toBytes_of_cache e b0 rest hcache

/-- C1 witness: the unsigned integer 5 carried in a wider-than-necessary
4-byte size field (header byte 0x0A) replays byte-for-byte. -/
theorem c1_data_element_roundtrip_witness :
    DataElement.toBytes
      (.mk 1 (.int 5) (some 4) (some [0x0A, 0, 0, 0, 5])) =
      some [0x0A, 0, 0, 0, 5] := by
  have hparse : DataElement.fromBytes [0x0A, 0, 0, 0, 5] =
      some (.mk 1 (.int 5) (some 4) (some [0x0A, 0, 0, 0, 5])) := by
    simp [DataElement.fromBytes, elementHeader, DataElement.constructValue,
      unsignedIntegerFromBytes, beToNat]
  exact c1_data_element_roundtrip [0x0A, 0, 0, 0, 5] _ 1 0 4 rfl rfl hparse

end Bumble.Sdp

namespace Bumble.Sdp

theorem isUuidInValue_iff_aux (u : DEValue) (t : Nat) (dev : DEValue)
    (vs : Option Nat) (c : Option (List Nat))
    (hne : ∀ (l : List DataElement), dev = DEValue.elements l → False) :
    isUuidInValue u (.mk t dev vs c) = true ↔
      UuidInValue u (.mk t dev vs c) := by
  rw [isUuidInValue.eq_2 u t dev vs c hne]
  by_cases ht : t = DataElement.UUID
  · subst ht
    rw [if_pos rfl]
    constructor
    · intro h
      exact UuidInValue.direct _ vs c h
    · intro h
      cases h with
      | direct _ _ _ hd => exact hd
  · rw [if_neg ht]
    by_cases hs : t = DataElement.SEQUENCE
    · rw [if_pos hs]
      constructor
      · intro h
        cases h
      · intro h
        cases h with
        | direct _ _ _ _ => exact absurd rfl ht
        | inSequence l _ _ _ _ _ => exact absurd rfl (hne l)
    · rw [if_neg hs]
      constructor
      · intro h
        cases h
      · intro h
        cases h with
        | direct _ _ _ _ => exact absurd rfl ht
        | inSequence _ _ _ _ _ _ => exact absurd rfl hs

mutual

/-- `is_uuid_in_value` decides the containment relation `UuidInValue`. -/
theorem isUuidInValue_iff (u : DEValue) : ∀ (v : DataElement),
    isUuidInValue u v = true ↔ UuidInValue u v
  | .mk t (.elements l) vs c => by
    rw [isUuidInValue]
    by_cases ht : t = DataElement.UUID
    · subst ht
      rw [if_pos rfl]
      constructor
      · intro h
        exact UuidInValue.direct _ vs c h
      · intro h
        cases h with
        | direct _ _ _ hd => exact hd
    · rw [if_neg ht]
      by_cases hs : t = DataElement.SEQUENCE
      · subst hs
        rw [if_pos rfl]
        rw [isUuidInElements_iff u l]
        constructor
        · rintro ⟨e, he, hin⟩
          exact UuidInValue.inSequence l vs c e he hin
        · intro h
          cases h with
          | inSequence l' vs' c' e he hin => exact ⟨e, he, hin⟩
      · rw [if_neg hs]
        constructor
        · intro h
          cases h
        · intro h
          cases h with
          | direct _ _ _ _ => exact absurd rfl ht
          | inSequence _ _ _ _ _ _ => exact absurd rfl hs
  | .mk t .nil vs c =>
    isUuidInValue_iff_aux u t .nil vs c (by intro l h; cases h)
  | .mk t (.int n) vs c =>
    isUuidInValue_iff_aux u t _ vs c (by intro l h; cases h)
  | .mk t (.uuid x) vs c =>
    isUuidInValue_iff_aux u t _ vs c (by intro l h; cases h)
  | .mk t (.text x) vs c =>
    isUuidInValue_iff_aux u t _ vs c (by intro l h; cases h)
  | .mk t (.bool b) vs c =>
    isUuidInValue_iff_aux u t _ vs c (by intro l h; cases h)
  | .mk t (.url x) vs c =>
    isUuidInValue_iff_aux u t _ vs c (by intro l h; cases h)
  | .mk t (.raw x) vs c =>
    isUuidInValue_iff_aux u t _ vs c (by intro l h; cases h)

/-- `is_uuid_in_value`'s sequence traversal finds a uuid exactly when some
element contains it. -/
theorem isUuidInElements_iff (u : DEValue) : ∀ (l : List DataElement),
    isUuidInElements u l = true ↔ ∃ e ∈ l, UuidInValue u e
  | [] => by simp [isUuidInElements]
  | e :: rest => by
    rw [isUuidInElements]
    rw [Bool.or_eq_true, isUuidInValue_iff u e, isUuidInElements_iff u rest]
    constructor
    · rintro (h | ⟨e', he', h⟩)
      · exact ⟨e, List.mem_cons_self e rest, h⟩
      · exact ⟨e', List.mem_cons_of_mem e he', h⟩
    · rintro ⟨e', he', h⟩
      rcases List.mem_cons.mp he' with rfl | hm
      · exact Or.inl h
      · exact Or.inr ⟨e', hm, h⟩

end

/-- C3 (amended): in the SDP server, a service record matches a
ServiceSearch pattern if and only if AT LEAST ONE UUID in the pattern
appears somewhere in some attribute value of the record, where the search
for a UUID inside an attribute value recurses into Sequence container
values only (not into Alternative values). -/
theorem c3_match_services_amended
    (records : List (Nat × List ServiceAttribute))
    (pattern : List DataElement) (entry : Nat × List ServiceAttribute) :
    entry ∈ matchServices records pattern ↔
      entry ∈ records ∧ ∃ u ∈ pattern, ∃ attr ∈ entry.2,
        UuidInValue u.value attr.value := by
  rw [matchServices, List.mem_filter]
  constructor
  · rintro ⟨hmem, hmatch⟩
    refine ⟨hmem, ?_⟩
    rw [serviceMatches, List.any_eq_true] at hmatch
    obtain ⟨u, hu, hmatch⟩ := hmatch
    rw [List.any_eq_true] at hmatch
    obtain ⟨attr, hattr, hmatch⟩ := hmatch
    exact ⟨u, hu, attr, hattr, (isUuidInValue_iff u.value attr.value).1 hmatch⟩
  · rintro ⟨hmem, u, hu, attr, hattr, hval⟩
    refine ⟨hmem, ?_⟩
    rw [serviceMatches, List.any_eq_true]
    exact ⟨u, hu, List.any_eq_true.mpr
      ⟨attr, hattr, (isUuidInValue_iff u.value attr.value).2 hval⟩⟩

/-- C3 counterexample: the claim as stated is false on two counts.
(1) A record holding only UUID 0x0111 is matched by `match_services` for
the pattern [0x0111, 0x0333] even though 0x0333 appears in no attribute
value of the record (not even searching Alternative values), so matching
is not "every UUID in the pattern appears".  (2) A record whose only
attribute value is an Alternative containing UUID 0x0222 is NOT matched
for the pattern [0x0222], so the search does not recurse into Alternative
values. -/
theorem c3_match_services_counterexample :
    ((matchServices [(1, [⟨1, .mk 3 (.uuid [1, 17]) none none⟩])]
        [.mk 3 (.uuid [1, 17]) none none,
         .mk 3 (.uuid [3, 51]) none none]).map Prod.fst = [1]) ∧
    (specUuidInValue (.uuid [3, 51]) (.mk 3 (.uuid [1, 17]) none none) =
      false) ∧
    ((matchServices
        [(2, [⟨1, .mk 7 (.elements [.mk 3 (.uuid [2, 34]) none none])
            none none⟩])]
        [.mk 3 (.uuid [2, 34]) none none]).map Prod.fst = []) ∧
    (specUuidInValue (.uuid [2, 34])
        (.mk 7 (.elements [.mk 3 (.uuid [2, 34]) none none]) none none) =
      true) := by
  refine ⟨?_, ?_, ?_, ?_⟩ <;> decide

end Bumble.Sdp

namespace Bumble.L2cap

/-- Unfolding equation for `processOutput` when out of credits. -/
theorem processOutput_no_credits (ch : LeCreditBasedChannel)
    (h : ¬ ch.credits > 0) : processOutput ch = some (ch, []) := by
  rw [processOutput, dif_neg h]

/-- Unfolding equation for `processOutput` when a partial SDU is pending. -/
theorem processOutput_sdu (ch : LeCreditBasedChannel) (sdu : List Nat)
    (hcr : ch.credits > 0) (hs : ch.outSdu = some sdu) :
    processOutput ch =
      (processOutput { ch with credits := ch.credits - 1, outSdu := if (sdu.take ch.peerMps).length = sdu.length then none else some (sdu.drop (sdu.take ch.peerMps).length) }).map
        (fun p => (p.1, sdu.take ch.peerMps :: p.2)) := by
  rw [processOutput, dif_pos hcr]
  split
  next sdu2 heq =>
    rw [hs] at heq
    injection heq with h2
    subst h2
    lift_lets
    extract_lets packet newOutSdu
    have hrr : processOutput { ch with credits := ch.credits - 1, outSdu := newOutSdu } = processOutput { ch with credits := ch.credits - 1, outSdu := if (sdu.take ch.peerMps).length = sdu.length then none else some (sdu.drop (sdu.take ch.peerMps).length) } := rfl
    rw [hrr]
    cases processOutput { ch with credits := ch.credits - 1, outSdu := if (sdu.take ch.peerMps).length = sdu.length then none else some (sdu.drop (sdu.take ch.peerMps).length) } with
    | none => rfl
    | some p =>
      obtain ⟨a, b⟩ := p
      rfl
  next heq =>
    rw [hs] at heq
    exact Option.noConfusion heq

/-- Unfolding equation for `processOutput` when there is nothing to send. -/
theorem processOutput_queue_nil (ch : LeCreditBasedChannel)
    (hcr : ch.credits > 0) (hs : ch.outSdu = none) (hq : ch.outQueue = []) :
    processOutput ch = some ({ ch with drained := true }, []) := by
  rw [processOutput, dif_pos hcr]
  split
  next sdu2 heq =>
    rw [hs] at heq
    exact Option.noConfusion heq
  next heq =>
    split
    next => rfl
    next q qs heq2 =>
      rw [hq] at heq2
      exact List.noConfusion heq2

/-- Unfolding equation for `processOutput` when a new SDU is assembled from
the output queue. -/
theorem processOutput_queue_cons (ch : LeCreditBasedChannel)
    (q : List Nat) (qs : List (List Nat))
    (hcr : ch.credits > 0) (hs : ch.outSdu = none)
    (hq : ch.outQueue = q :: qs) :
    processOutput ch =
      (if (assemblePayload [] ch.outQueue ch.peerMtu).1.length = 0 then none
       else if (assemblePayload [] ch.outQueue ch.peerMtu).1.length < 65536 then
         processOutput { ch with outQueue := (assemblePayload [] ch.outQueue ch.peerMtu).2, outSdu := some ((assemblePayload [] ch.outQueue ch.peerMtu).1.length % 256 :: (assemblePayload [] ch.outQueue ch.peerMtu).1.length / 256 :: (assemblePayload [] ch.outQueue ch.peerMtu).1) }
       else none) := by
  rw [processOutput, dif_pos hcr]
  split
  next sdu2 heq =>
    rw [hs] at heq
    exact Option.noConfusion heq
  next heq =>
    split
    next heq2 =>
      rw [hq] at heq2
      exact List.noConfusion heq2
    next q2 qs2 heq2 =>
      rfl

/-- `process_output` does not touch the peer credit fields and keeps
credits non-negative. -/
theorem processOutput_fields (ch : LeCreditBasedChannel) :
    ∀ ch' pdus, processOutput ch = some (ch', pdus) →
      ch'.peerCredits = ch.peerCredits ∧
      ch'.peerMaxCredits = ch.peerMaxCredits ∧
      (0 ≤ ch.credits → 0 ≤ ch'.credits) := by
  induction ch using processOutput.induct
  case case1 c hcr sdu hsdu pk nos hrec ih =>
    intro ch' pdus hpo
    rw [processOutput_sdu c sdu hcr hsdu, Option.map_eq_some'] at hpo
    obtain ⟨p, hp, hf⟩ := hpo
    exact Option.noConfusion (hrec.symm.trans hp)
  case case2 c hcr sdu hsdu pk nos rch rpdus hrec ih =>
    intro ch' pdus hpo
    rw [processOutput_sdu c sdu hcr hsdu, Option.map_eq_some'] at hpo
    obtain ⟨p, hp, hf⟩ := hpo
    have h3 : (rch, rpdus) = p := Option.some.inj (hrec.symm.trans hp)
    have hp1 : p.1 = ch' := congrArg Prod.fst hf
    have hp2 : p.1 = rch := congrArg Prod.fst h3.symm
    have hch : ch' = rch := hp1.symm.trans hp2
    obtain ⟨e1, e2, e3⟩ := ih rch rpdus hrec
    rw [hch]
    refine ⟨e1, e2, fun hc => e3 ?_⟩
    show 0 ≤ c.credits - 1
    omega
  case case3 c hcr hnone hqnil =>
    intro ch' pdus hpo
    rw [processOutput_queue_nil c hcr hnone hqnil] at hpo
    have h1 := Option.some.inj hpo
    have h2 : ch' = { c with drained := true } := (congrArg Prod.fst h1).symm
    subst h2
    exact ⟨rfl, rfl, fun hc => hc⟩
  case case4 c hcr hnone qhead qtail hqcons asm hassert =>
    intro ch' pdus hpo
    have hassert2 : (assemblePayload [] c.outQueue c.peerMtu).1.length = 0 :=
      hassert
    rw [processOutput_queue_cons c qhead qtail hcr hnone hqcons,
      if_pos hassert2] at hpo
    exact Option.noConfusion hpo
  case case5 c hcr hnone qhead qtail hqcons asm hassert hsize ih =>
    intro ch' pdus hpo
    have hassert2 : ¬ (assemblePayload [] c.outQueue c.peerMtu).1.length = 0 :=
      hassert
    have hsize2 : (assemblePayload [] c.outQueue c.peerMtu).1.length < 65536 :=
      hsize
    rw [processOutput_queue_cons c qhead qtail hcr hnone hqcons,
      if_neg hassert2, if_pos hsize2] at hpo
    obtain ⟨e1, e2, e3⟩ := ih ch' pdus hpo
    exact ⟨e1, e2, e3⟩
  case case6 c hcr hnone qhead qtail hqcons asm hassert hsize =>
    intro ch' pdus hpo
    have hassert2 : ¬ (assemblePayload [] c.outQueue c.peerMtu).1.length = 0 :=
      hassert
    have hsize2 : ¬ (assemblePayload [] c.outQueue c.peerMtu).1.length < 65536 :=
      hsize
    rw [processOutput_queue_cons c qhead qtail hcr hnone hqcons,
      if_neg hassert2, if_neg hsize2] at hpo
    exact Option.noConfusion hpo
  case case7 c h =>
    intro ch' pdus hpo
    rw [processOutput_no_credits c h] at hpo
    have h1 := Option.some.inj hpo
    have h2 : ch' = c := (congrArg Prod.fst h1).symm
    subst h2
    exact ⟨rfl, rfl, id⟩

/-- `on_credits` on a drained channel with positive resulting credits just
updates the credit count. -/
theorem onCredits_drained (ch : LeCreditBasedChannel) (n : Nat)
    (h : ch.credits + (n : Int) > 0) (hs : ch.outSdu = none)
    (hq : ch.outQueue = []) :
    ch.onCredits n =
      some ({ ch with credits := ch.credits + (n : Int), drained := true },
        []) := by
  unfold LeCreditBasedChannel.onCredits
  exact processOutput_queue_nil _ h hs hq

/-- `write` keeps credits non-negative and does not touch peer credits. -/
theorem write_inv (ch : LeCreditBasedChannel) (data : List Nat)
    (ch' : LeCreditBasedChannel) (pdus : List (List Nat))
    (hw : ch.write data = some (ch', pdus)) (h1 : 0 ≤ ch.credits) :
    0 ≤ ch'.credits ∧ ch'.peerCredits = ch.peerCredits ∧
      ch'.peerMaxCredits = ch.peerMaxCredits := by
  unfold LeCreditBasedChannel.write at hw
  by_cases hs : ch.state ≠ ChannelState.CONNECTED
  · rw [if_pos hs] at hw
    have h := Option.some.inj hw
    have hc : ch' = ch := (congrArg Prod.fst h).symm
    subst hc
    exact ⟨h1, rfl, rfl⟩
  · rw [if_neg hs] at hw
    obtain ⟨e1, e2, e3⟩ := processOutput_fields _ ch' pdus hw
    exact ⟨e3 h1, e1, e2⟩

/-- The peer-credit section keeps the peer credits between `0` and
`peer_max_credits` and does not touch the sender credits. -/
theorem onPduCredits_inv (ch : LeCreditBasedChannel)
    (h2 : 0 ≤ ch.peerCredits) (h3 : ch.peerCredits ≤ ch.peerMaxCredits) :
    (onPduCredits ch).1.credits = ch.credits ∧
    0 ≤ (onPduCredits ch).1.peerCredits ∧
    (onPduCredits ch).1.peerCredits ≤ (onPduCredits ch).1.peerMaxCredits := by
  unfold onPduCredits
  by_cases hc0 : ch.peerCredits = 0
  · rw [if_pos hc0]
    exact ⟨rfl, h2, h3⟩
  · rw [if_neg hc0]
    by_cases hth : ch.peerCredits - 1 ≤ ch.peerCreditsThreshold
    · rw [if_pos hth]
      refine ⟨rfl, ?_, ?_⟩
      · show 0 ≤ ch.peerMaxCredits
        omega
      · show ch.peerMaxCredits ≤ ch.peerMaxCredits
        exact le_refl _
    · rw [if_neg hth]
      refine ⟨rfl, ?_, ?_⟩
      · show 0 ≤ ch.peerCredits - 1
        omega
      · show ch.peerCredits - 1 ≤ ch.peerMaxCredits
        omega

/-- The SDU-assembly section does not touch any credit field. -/
theorem onPduSdu_fields (ch : LeCreditBasedChannel) (pdu : List Nat) :
    (onPduSdu ch pdu).1.credits = ch.credits ∧
    (onPduSdu ch pdu).1.peerCredits = ch.peerCredits ∧
    (onPduSdu ch pdu).1.peerMaxCredits = ch.peerMaxCredits := by
  unfold onPduSdu
  repeat' split
  all_goals exact ⟨rfl, rfl, rfl⟩

/-- `on_pdu` does not touch the sender credits and keeps the peer credits
between `0` and `peer_max_credits`. -/
theorem onPdu_inv (ch : LeCreditBasedChannel) (pdu : List Nat)
    (h2 : 0 ≤ ch.peerCredits) (h3 : ch.peerCredits ≤ ch.peerMaxCredits) :
    (ch.onPdu pdu).1.credits = ch.credits ∧
    0 ≤ (ch.onPdu pdu).1.peerCredits ∧
    (ch.onPdu pdu).1.peerCredits ≤ (ch.onPdu pdu).1.peerMaxCredits := by
  unfold LeCreditBasedChannel.onPdu
  by_cases hsk : ¬ ch.sinkSet
  · rw [if_pos hsk]
    exact ⟨rfl, h2, h3⟩
  · rw [if_neg hsk]
    obtain ⟨c1, c2, c3⟩ := onPduCredits_inv ch h2 h3
    obtain ⟨s1, s2, s3⟩ := onPduSdu_fields (onPduCredits ch).1 pdu
    refine ⟨?_, ?_, ?_⟩
    · show (onPduSdu (onPduCredits ch).1 pdu).1.credits = ch.credits
      rw [s1, c1]
    · show 0 ≤ (onPduSdu (onPduCredits ch).1 pdu).1.peerCredits
      rw [s2]
      exact c2
    · show (onPduSdu (onPduCredits ch).1 pdu).1.peerCredits ≤
        (onPduSdu (onPduCredits ch).1 pdu).1.peerMaxCredits
      rw [s2, s3]
      exact c3

/-- `on_credits` keeps credits non-negative and does not touch peer
credits. -/
theorem onCredits_inv (ch : LeCreditBasedChannel) (n : Nat)
    (ch' : LeCreditBasedChannel) (pdus : List (List Nat))
    (hw : ch.onCredits n = some (ch', pdus)) (h1 : 0 ≤ ch.credits) :
    0 ≤ ch'.credits ∧ ch'.peerCredits = ch.peerCredits ∧
      ch'.peerMaxCredits = ch.peerMaxCredits := by
  unfold LeCreditBasedChannel.onCredits at hw
  obtain ⟨e1, e2, e3⟩ := processOutput_fields _ ch' pdus hw
  refine ⟨e3 ?_, e1, e2⟩
  show 0 ≤ ch.credits + (n : Int)
  omega

/-- A single channel operation preserves the credit invariants. -/
theorem execOp_inv (ch : LeCreditBasedChannel) (op : ChannelOp)
    (ch' : LeCreditBasedChannel) (he : execOp ch op = some ch')
    (h1 : 0 ≤ ch.credits) (h2 : 0 ≤ ch.peerCredits)
    (h3 : ch.peerCredits ≤ ch.peerMaxCredits) :
    0 ≤ ch'.credits ∧ 0 ≤ ch'.peerCredits ∧
      ch'.peerCredits ≤ ch'.peerMaxCredits := by
  cases op with
  | write data =>
    rw [show execOp ch (ChannelOp.write data) =
        (ch.write data).map Prod.fst from rfl, Option.map_eq_some'] at he
    obtain ⟨⟨cc, pdus⟩, hw, hfst⟩ := he
    obtain ⟨f1, f2, f3⟩ := write_inv ch data cc pdus hw h1
    have hc : cc = ch' := hfst
    subst hc
    exact ⟨f1, by rw [f2]; exact h2, by rw [f2, f3]; exact h3⟩
  | onPdu pdu =>
    have hc : (ch.onPdu pdu).1 = ch' := Option.some.inj he
    subst hc
    obtain ⟨g1, g2, g3⟩ := onPdu_inv ch pdu h2 h3
    exact ⟨by rw [g1]; exact h1, g2, g3⟩
  | onCredits n =>
    rw [show execOp ch (ChannelOp.onCredits n) =
        (ch.onCredits n).map Prod.fst from rfl, Option.map_eq_some'] at he
    obtain ⟨⟨cc, pdus⟩, hw, hfst⟩ := he
    obtain ⟨f1, f2, f3⟩ := onCredits_inv ch n cc pdus hw h1
    have hc : cc = ch' := hfst
    subst hc
    exact ⟨f1, by rw [f2]; exact h2, by rw [f2, f3]; exact h3⟩

/-- Any sequence of channel operations preserves the credit invariants. -/
theorem execOps_inv (ops : List ChannelOp) (ch ch' : LeCreditBasedChannel)
    (he : execOps ch ops = some ch')
    (h1 : 0 ≤ ch.credits) (h2 : 0 ≤ ch.peerCredits)
    (h3 : ch.peerCredits ≤ ch.peerMaxCredits) :
    0 ≤ ch'.credits ∧ 0 ≤ ch'.peerCredits ∧
      ch'.peerCredits ≤ ch'.peerMaxCredits := by
  induction ops generalizing ch with
  | nil =>
    have hc : ch = ch' := Option.some.inj he
    subst hc
    exact ⟨h1, h2, h3⟩
  | cons op rest ih =>
    rw [execOps] at he
    cases hm : execOp ch op with
    | none =>
      rw [hm] at he
      exact Option.noConfusion he
    | some cmid =>
      rw [hm] at he
      have he' : execOps cmid rest = some ch' := he
      obtain ⟨g1, g2, g3⟩ := execOp_inv ch op cmid hm h1 h2 h3
      exact ih cmid he' g1 g2 g3

/-- C8 (amended): after any sequence of operations on an LE Credit-Based
channel that starts with `0 ≤ credits` and
`0 ≤ peer_credits ≤ peer_max_credits`, these bounds still hold; the
`credits ≤ 65535` bound of the original claim is refuted by
`c8_credits_counterexample`. -/
theorem c8_credit_invariants (ch : LeCreditBasedChannel)
    (ops : List ChannelOp) (ch' : LeCreditBasedChannel)
    (hrun : execOps ch ops = some ch')
    (h1 : 0 ≤ ch.credits) (h2 : 0 ≤ ch.peerCredits)
    (h3 : ch.peerCredits ≤ ch.peerMaxCredits) :
    0 ≤ ch'.credits ∧ 0 ≤ ch'.peerCredits ∧
      ch'.peerCredits ≤ ch'.peerMaxCredits :=
  execOps_inv ops ch ch' hrun h1 h2 h3

/-- C8 witness: the amended invariant at a concrete channel and K-frame. -/
theorem c8_credit_invariants_witness :
    0 ≤ ((mkLeCreditBasedChannel 23 23 10 23 23 10 true
        true).onPdu [2, 0, 9, 9]).1.credits ∧
    0 ≤ ((mkLeCreditBasedChannel 23 23 10 23 23 10 true
        true).onPdu [2, 0, 9, 9]).1.peerCredits ∧
    ((mkLeCreditBasedChannel 23 23 10 23 23 10 true
        true).onPdu [2, 0, 9, 9]).1.peerCredits ≤
      ((mkLeCreditBasedChannel 23 23 10 23 23 10 true
        true).onPdu [2, 0, 9, 9]).1.peerMaxCredits :=
  c8_credit_invariants (mkLeCreditBasedChannel 23 23 10 23 23 10 true true)
    [ChannelOp.onPdu [2, 0, 9, 9]] _ (by decide) (by decide) (by decide)
    (by decide)

/-- C8 counterexample: an `L2CAP_LE_Flow_Control_Credit` frame carrying
40000 credits pushes a channel that starts with 40000 credits to 80000,
beyond the 65535 bound the claim asserts (`on_credits` adds with no cap). -/
theorem c8_credits_counterexample :
    ∃ ch', execOps (mkLeCreditBasedChannel 23 23 40000 23 23 10 true true)
        [ChannelOp.onCredits 40000] = some ch' ∧
      ¬ (ch'.credits ≤ 65535) := by
  have e1 := onCredits_drained
    (mkLeCreditBasedChannel 23 23 40000 23 23 10 true true) 40000
    (by decide) rfl rfl
  refine ⟨{ mkLeCreditBasedChannel 23 23 40000 23 23 10 true true with
      credits := (mkLeCreditBasedChannel 23 23 40000 23 23 10 true
        true).credits + ((40000 : Nat) : Int)
      drained := true }, ?_, by decide⟩
  simp only [execOps, execOp, e1, Option.map_some']

/-- C10: writing data on an LE Credit-Based channel whose state is not
CONNECTED logs a warning and drops the data silently: the state is
unchanged and no PDU is sent. -/
theorem c10_write_not_connected_drops (ch : LeCreditBasedChannel)
    (data : List Nat) (h : ch.state ≠ ChannelState.CONNECTED) :
    LeCreditBasedChannel.write ch data = some (ch, []) := by
  rw [LeCreditBasedChannel.write, if_pos h]

/-- C10 witness: a concrete non-connected channel drops a concrete write. -/
theorem c10_write_not_connected_drops_witness :
    LeCreditBasedChannel.write
      (mkLeCreditBasedChannel 23 23 0 23 23 1 false false) [1, 2, 3] =
      some (mkLeCreditBasedChannel 23 23 0 23 23 1 false false, []) :=
  c10_write_not_connected_drops _ _ (by decide)

/-- C4: on an SDU overflow (more bytes accumulated than the announced SDU
length), `on_pdu` only logs a warning, resets the reassembly buffer and
keeps the channel connected (the code carries a `TODO: we should
disconnect`); the claim that the channel is disconnected on overflow does
not hold.  Concretely: a K-frame announcing a 2-byte SDU that carries 2
payload bytes is delivered; a K-frame announcing a 1-byte SDU that
carries 2 payload bytes overflows, delivers nothing, and leaves the
channel CONNECTED with an empty buffer. -/
theorem c4_sdu_overflow_does_not_disconnect :
    ((LeCreditBasedChannel.onPdu
        (mkLeCreditBasedChannel 23 23 0 23 23 10 true true)
        [2, 0, 9, 9]).2.2 = [[9, 9]]) ∧
    ((LeCreditBasedChannel.onPdu
        (mkLeCreditBasedChannel 23 23 0 23 23 10 true true)
        [1, 0, 170, 187]).1.state = ChannelState.CONNECTED) ∧
    ((LeCreditBasedChannel.onPdu
        (mkLeCreditBasedChannel 23 23 0 23 23 10 true true)
        [1, 0, 170, 187]).1.inSdu = none) ∧
    ((LeCreditBasedChannel.onPdu
        (mkLeCreditBasedChannel 23 23 0 23 23 10 true true)
        [1, 0, 170, 187]).2.2 = []) := by
  refine ⟨?_, ?_, ?_, ?_⟩ <;> decide

end Bumble.L2cap

namespace Bumble.L2cap

/-- `ermSegmentLoop` on the 8-byte example SDU: terminal step. -/
theorem ermSegmentLoop_example_at8 :
    ermSegmentLoop [0, 1, 2, 3, 4, 5, 6, 7] 3 0 8 3 = some (3, []) := by
  rw [ermSegmentLoop]
  rfl

/-- `ermSegmentLoop` on the example SDU: END frame step. -/
theorem ermSegmentLoop_example_at6 :
    ermSegmentLoop [0, 1, 2, 3, 4, 5, 6, 7] 3 0 6 2 =
      some (3, [([4, 128, 6, 7], true)]) := by
  rw [ermSegmentLoop]
  norm_num
  rw [ermSegmentLoop_example_at8]
  decide

/-- `ermSegmentLoop` on the example SDU: CONTINUATION frame step. -/
theorem ermSegmentLoop_example_at3 :
    ermSegmentLoop [0, 1, 2, 3, 4, 5, 6, 7] 3 0 3 1 =
      some (3, [([2, 192, 3, 4, 5], true), ([4, 128, 6, 7], true)]) := by
  rw [ermSegmentLoop]
  norm_num
  rw [ermSegmentLoop_example_at6]
  decide

/-- `ermSegmentLoop` on the example SDU: START frame step. -/
theorem ermSegmentLoop_example_at0 :
    ermSegmentLoop [0, 1, 2, 3, 4, 5, 6, 7] 3 0 0 0 =
      some (3, [([0, 64, 0, 1, 2], true), ([2, 192, 3, 4, 5], true),
        ([4, 128, 6, 7], true)]) := by
  rw [ermSegmentLoop]
  norm_num
  rw [ermSegmentLoop_example_at3]
  decide

/-- C5: the claimed ERM segmentation/reassembly round trip fails.  A
sender in Enhanced Retransmission Mode with `peer_mps = 3` writing the
8-byte SDU `[0..7]` emits the I-frames `[0,64|0,1,2]` (sar=start),
`[2,192|3,4,5]` (sar=continuation) and `[4,128|6,7]` (sar=end),
incrementing `tx_seq` per frame as claimed — but with NO 2-byte SDU
length prepended to the start frame.  A receiver (same embedding of
`on_pdu`) fed exactly those frames (with FCS appended, as `send_pdu`
does) delivers `[2,6,7]` to its sink instead of the original SDU:
`on_pdu` strips 4 leading bytes of a start frame (expecting the length
prefix the sender never wrote) and ignores continuation payloads
entirely. -/
theorem c5_erm_relay_mismatch :
    (ClassicChannel.write
        ⟨TransmissionMode.ENHANCED_RETRANSMISSION, 3, 0, 0, 0, 10, [],
          true, false⟩ [0, 1, 2, 3, 4, 5, 6, 7] =
      some (⟨TransmissionMode.ENHANCED_RETRANSMISSION, 3, 3, 0, 0, 10, [],
          true, false⟩,
        [([0, 64, 0, 1, 2], true), ([2, 192, 3, 4, 5], true),
          ([4, 128, 6, 7], true)])) ∧
    ((ClassicChannel.onPdus
        ⟨TransmissionMode.ENHANCED_RETRANSMISSION, 3, 0, 0, 0, 10, [],
          true, false⟩
        ([([0, 64, 0, 1, 2], true), ([2, 192, 3, 4, 5], true),
          ([4, 128, 6, 7], true)].map relayPdu)).map Prod.snd =
      some [[2, 6, 7]]) ∧
    [[2, 6, 7]] ≠ [[0, 1, 2, 3, 4, 5, 6, 7]] := by
  refine ⟨?_, by decide, by decide⟩
  rw [ClassicChannel.write]
  norm_num
  rw [ermSegmentLoop_example_at0]

end Bumble.L2cap

namespace Bumble.Device

/-- C6 (amended): under `with_connection_from_handle` (the handle is a
live connection, of any role), `on_disconnection` schedules a
`start_advertising(advertising_type=self.advertising_type,
auto_restart=True)` task exactly when `auto_restart_advertising` is set —
the role of the disconnected connection is never consulted, so
central-role disconnections restart advertising too (refuted original
claim: see the counterexample). -/
theorem c6_auto_restart_ignores_role (device : Device)
    (handle role reason : Nat)
    (hlookup : device.connections.lookup handle = some role) :
    (onDisconnection device handle reason).map Prod.snd =
      some (if device.autoRestartAdvertising then
          some ⟨device.advertisingType, true⟩
        else none) := by
  rw [onDisconnection, hlookup]
  by_cases h : device.autoRestartAdvertising <;> simp [h]

/-- C6 witness: a peripheral-role disconnection with auto-restart set
schedules a restart with the same advertising type. -/
theorem c6_auto_restart_ignores_role_witness :
    (onDisconnection ⟨[(5, HCI_PERIPHERAL_ROLE)], false, some 2, true⟩
        5 19).map Prod.snd = some (some ⟨some 2, true⟩) :=
  c6_auto_restart_ignores_role
    ⟨[(5, HCI_PERIPHERAL_ROLE)], false, some 2, true⟩ 5
    HCI_PERIPHERAL_ROLE 19 (by decide)

/-- C6 counterexample: a device whose only connection (handle 7) has the
CENTRAL role and whose `auto_restart_advertising` is set still schedules
an advertising restart on the disconnection of that connection,
contradicting the claim that central-role disconnections do not trigger a
restart. -/
theorem c6_central_role_restart_counterexample :
    ([((7 : Nat), HCI_CENTRAL_ROLE)].lookup 7 = some HCI_CENTRAL_ROLE) ∧
    ((onDisconnection ⟨[(7, HCI_CENTRAL_ROLE)], false, some 0, true⟩
        7 19).map Prod.snd = some (some ⟨some 0, true⟩)) :=
  ⟨by decide, by decide⟩

end Bumble.Device

namespace Bumble.Link

/-- C9 (amended): `send_acl_data`, `send_ll_control_pdu` and
`send_lmp_packet` deliver only through
`asyncio.get_running_loop().call_soon(...)` — nothing is delivered
synchronously inside the sender's call — but `send_advertising_data`
delivers synchronously: it invokes `on_le_advertising_data` directly on
every other controller during the send call and schedules nothing
(refuted original claim: see the counterexample). -/
theorem c9_send_dispatch_amended (link : LocalLink) (sender : Controller)
    (senderAddress destinationAddress transport packet : Nat)
    (data : List Nat) :
    (∀ d, sendAclData link sender destinationAddress transport data =
      some d → d.immediate = []) ∧
    (∀ d, sendLlControlPdu link sender destinationAddress packet =
      some d → d.immediate = []) ∧
    (∀ d, sendLmpPacket link sender destinationAddress packet =
      some d → d.immediate = []) ∧
    (sendAdvertisingData link senderAddress data).scheduled = [] ∧
    (sendAdvertisingData link senderAddress data).immediate =
      (link.controllers.filter
        (fun c => c.randomAddress ≠ senderAddress)).map
        (fun c => .advertisingData c senderAddress data) := by
  refine ⟨?_, ?_, ?_, rfl, rfl⟩
  · intro d h
    unfold sendAclData at h
    split at h
    · split at h
      · have hd := Option.some.inj h
        rw [← hd]
      · have hd := Option.some.inj h
        rw [← hd]
    · split at h
      · split at h
        · have hd := Option.some.inj h
          rw [← hd]
        · have hd := Option.some.inj h
          rw [← hd]
      · exact Option.noConfusion h
  · intro d h
    unfold sendLlControlPdu at h
    split at h
    · exact Option.noConfusion h
    · have hd := Option.some.inj h
      rw [← hd]
  · intro d h
    unfold sendLmpPacket at h
    split at h
    · exact Option.noConfusion h
    · have hd := Option.some.inj h
      rw [← hd]

/-- C9 counterexample: on a link with two controllers, one controller
sending advertising data delivers it to the other controller immediately,
inside the sender's `send_advertising_data` call, not asynchronously —
the immediate-delivery list is non-empty. -/
theorem c9_advertising_synchronous_counterexample :
    ((sendAdvertisingData ⟨[⟨1, 101⟩, ⟨2, 102⟩]⟩ 1 [7]).immediate =
      [.advertisingData ⟨2, 102⟩ 1 [7]]) ∧
    ((sendAdvertisingData ⟨[⟨1, 101⟩, ⟨2, 102⟩]⟩ 1 [7]).immediate ≠ []) :=
  ⟨by decide, by decide⟩

end Bumble.Link

namespace Bumble.Hci

/-- C7 (amended): for the pb_flag values `feed_packet` actually handles —
a first fragment (first-non-flushable or first-flushable, carrying at
least the 2-byte length header) starts a new buffer whatever the previous
state was; a continuation fragment is appended when a buffer exists, or
dropped with no state change when none does; in either case the PDU is
emitted and the buffer reset exactly when the accumulated size equals the
first fragment's L2CAP length field plus 4, and an oversized accumulation
is dropped with a warning.  The pb_flag value 3
(`HCI_ACK_PB_COMPLETE_L2CAP`) of the original claim is NOT handled: see
the counterexample. -/
theorem c7_feed_packet_amended (asm : HCI_AclDataPacketAssembler)
    (pbFlag l0 l1 : Nat) (rest data : List Nat) :
    ((pbFlag = HCI_ACL_PB_FIRST_NON_FLUSHABLE ∨
      pbFlag = HCI_ACL_PB_FIRST_FLUSHABLE) →
      feedPacket asm pbFlag (l0 :: l1 :: rest) =
        (if (l0 :: l1 :: rest).length = leToNat16 l0 l1 + 4 then
          some (⟨none, 0⟩, [l0 :: l1 :: rest])
        else if (l0 :: l1 :: rest).length > leToNat16 l0 l1 + 4 then
          some (⟨none, 0⟩, [])
        else some (⟨some (l0 :: l1 :: rest), leToNat16 l0 l1⟩, []))) ∧
    (∀ current, asm.currentData = some current →
      feedPacket asm HCI_ACL_PB_CONTINUATION data =
        (if (current ++ data).length = asm.l2capPduLength + 4 then
          some (⟨none, 0⟩, [current ++ data])
        else if (current ++ data).length > asm.l2capPduLength + 4 then
          some (⟨none, 0⟩, [])
        else some (⟨some (current ++ data), asm.l2capPduLength⟩, []))) ∧
    (asm.currentData = none →
      feedPacket asm HCI_ACL_PB_CONTINUATION data = some (asm, [])) := by
  refine ⟨?_, ?_, ?_⟩
  · rintro (rfl | rfl) <;> simp [feedPacket]
  · intro current hc
    simp [feedPacket, hc]
  · intro hc
    simp [feedPacket, hc]

/-- C7 witness: the amended behavior at concrete fragments — a first
fragment announcing a 1-byte PDU completed by a continuation byte. -/
theorem c7_feed_packet_amended_witness :
    feedPacket ⟨some [1, 0, 170, 187], 1⟩ HCI_ACL_PB_CONTINUATION [204] =
      some (⟨none, 0⟩, [[1, 0, 170, 187, 204]]) := by
  have h := (c7_feed_packet_amended ⟨some [1, 0, 170, 187], 1⟩ 1 0 0 []
    [204]).2.1 [1, 0, 170, 187] rfl
  rw [h]
  decide

/-- C7 counterexample: a fragment with pb_flag 3
(`HCI_ACK_PB_COMPLETE_L2CAP`, a complete automatically-flushable L2CAP
PDU) arriving while no reassembly is in progress does not start a buffer
or emit the PDU: `feed_packet` handles only pb_flag 0, 1 and 2, falls
through to `assert self.current_data is not None`, and raises an
`AssertionError` (`none`) — even though the fragment [1, 0, 9, 9, 9] is a
well-formed complete PDU whose size equals its length field plus 4. -/
theorem c7_complete_pb_counterexample :
    feedPacket ⟨none, 0⟩ HCI_ACK_PB_COMPLETE_L2CAP [1, 0, 9, 9, 9] =
      none ∧
    ([1, 0, 9, 9, 9] : List Nat).length = leToNat16 1 0 + 4 :=
  ⟨by decide, by decide⟩

end Bumble.Hci

namespace Bumble.Hci

/-- Bitwise-or of a shifted value with a small value is addition. -/
theorem mul_two_pow_lor_eq_add (a : Nat) (k : Nat) :
    ∀ b, b < 2 ^ k → (a * 2 ^ k) ||| b = a * 2 ^ k + b := by
  induction k generalizing a with
  | zero =>
    intro b hb
    interval_cases b
    simp
  | succ k ih =>
    intro b hb
    have hb2 : b / 2 < 2 ^ k := by
      have h2 : (2:Nat) ^ (k+1) = 2 * 2 ^ k := by ring
      omega
    have h1 : a * 2 ^ (k + 1) = Nat.bit false (a * 2 ^ k) := by
      simp [Nat.bit_val]
      ring
    have h2 : b = Nat.bit (decide (b % 2 = 1)) (b / 2) := by
      rcases Nat.mod_two_eq_zero_or_one b with h | h <;>
        simp [Nat.bit_val, h] <;> omega
    calc (a * 2 ^ (k+1)) ||| b
        = Nat.bit false (a * 2 ^ k) |||
            Nat.bit (decide (b % 2 = 1)) (b / 2) := by
          rw [← h1, ← h2]
      _ = Nat.bit (false || decide (b % 2 = 1)) ((a * 2 ^ k) ||| (b / 2)) :=
          Nat.lor_bit false (a * 2 ^ k) (decide (b % 2 = 1)) (b / 2)
      _ = Nat.bit (decide (b % 2 = 1)) (a * 2 ^ k + b / 2) := by
          rw [Bool.false_or, ih a (b / 2) hb2]
      _ = a * 2 ^ (k + 1) + b := by
          rcases Nat.mod_two_eq_zero_or_one b with h | h <;>
            simp [Nat.bit_val, h] <;> ring_nf <;> omega

/-- The connection-handle header packing of `HCI_AclDataPacket.__bytes__`
as arithmetic. -/
theorem header_12_14 (y x handle : Nat) (hy : y < 4) (hx : x < 4)
    (hh : handle < 4096) :
    (y <<< 12) ||| (x <<< 14) ||| handle =
      x * 16384 + y * 4096 + handle := by
  rw [Nat.shiftLeft_eq, Nat.shiftLeft_eq]
  rw [Nat.lor_comm (y * 2 ^ 12) (x * 2 ^ 14)]
  rw [mul_two_pow_lor_eq_add x 14 (y * 2 ^ 12) (by norm_num; omega)]
  rw [show x * 2 ^ 14 + y * 2 ^ 12 = (x * 4 + y) * 2 ^ 12 by ring]
  rw [mul_two_pow_lor_eq_add (x * 4 + y) 12 handle (by omega)]
  ring

/-- The pdu-info header packing of `HCI_IsoDataPacket.__bytes__` as
arithmetic. -/
theorem header_14_12 (x y handle : Nat) (hx : x < 4) (hy : y < 4)
    (hh : handle < 4096) :
    (x <<< 14) ||| (y <<< 12) ||| handle =
      x * 16384 + y * 4096 + handle := by
  rw [Nat.shiftLeft_eq, Nat.shiftLeft_eq]
  rw [mul_two_pow_lor_eq_add x 14 (y * 2 ^ 12) (by norm_num; omega)]
  rw [show x * 2 ^ 14 + y * 2 ^ 12 = (x * 4 + y) * 2 ^ 12 by ring]
  rw [mul_two_pow_lor_eq_add (x * 4 + y) 12 handle (by omega)]
  ring

/-- Masking with `0xFFF` is `% 4096`. -/
theorem and_4095_eq_mod (n : Nat) : n &&& 4095 = n % 4096 := by
  have := Nat.and_pow_two_sub_one_eq_mod n 12
  norm_num at this
  exact this

/-- Masking with `0b11` is `% 4`. -/
theorem and_3_eq_mod (n : Nat) : n &&& 3 = n % 4 := by
  have := Nat.and_pow_two_sub_one_eq_mod n 2
  norm_num at this
  exact this

/-- Masking with `0b1` is `% 2`. -/
theorem and_1_eq_mod (n : Nat) : n &&& 1 = n % 2 := by
  simpa using Nat.and_pow_two_sub_one_eq_mod n 1

/-- `>>> 12` is division by 4096. -/
theorem shiftRight12_eq_div (n : Nat) : n >>> 12 = n / 4096 := by
  have := Nat.shiftRight_eq_div_pow n 12
  norm_num at this
  exact this

/-- `>>> 14` is division by 16384. -/
theorem shiftRight14_eq_div (n : Nat) : n >>> 14 = n / 16384 := by
  have := Nat.shiftRight_eq_div_pow n 14
  norm_num at this
  exact this

/-- `>>> 15` is division by 32768. -/
theorem shiftRight15_eq_div (n : Nat) : n >>> 15 = n / 32768 := by
  have := Nat.shiftRight_eq_div_pow n 15
  norm_num at this
  exact this

/-- Reading back the two bytes of a `<H`-packed value. -/
theorem leToNat16_split (v : Nat) : leToNat16 (v % 256) (v / 256) = v := by
  rw [leToNat16]
  omega

/-- C2 (amended): for every registry assignment (the source's
`command_classes`, `event_classes` and `subevent_classes` maps are model
parameters) and every well-formed HCI packet object (Command, Event,
AclData, SynchronousData, IsoData or Custom — fields in range, lengths
consistent, the LE-meta event non-empty, the ISO optional sub-headers
matching their flags, a custom packet's type byte not colliding with a
standard one), parsing its serialization returns an equal packet, every
field preserved — PROVIDED that, for a command or event packet whose code
has a registered class, that class's `from_parameters` accepts the
parameter bytes.  Without that proviso the original claim is false: a
registered class re-parses the parameters and raises when they do not
decode under its field table (see the counterexample at opcode
0x2005). -/
theorem c2_hci_packet_roundtrip
    (commandClasses eventClasses subeventClasses : ClassRegistry)
    (P : HCI_Packet) (h : wellFormed P)
    (hcmd : ∀ opCode parameters accepts, P = .command opCode parameters →
      commandClasses opCode = some accepts → accepts parameters = true)
    (hevt : ∀ c parameters accepts, P = .event c parameters →
      c ≠ HCI_LE_META_EVENT → c ≠ HCI_VENDOR_EVENT →
      eventClasses c = some accepts → accepts parameters = true)
    (hsub : ∀ parameters sub tail accepts,
      P = .event HCI_LE_META_EVENT parameters → parameters = sub :: tail →
      subeventClasses sub = some accepts → accepts parameters = true) :
    (HCI_Packet.toBytes P).bind
      (HCI_Packet.fromBytes commandClasses eventClasses subeventClasses) =
      some P := by
  cases P with
  | command opCode parameters =>
    obtain ⟨h1, h2, h3⟩ := h
    rw [HCI_Packet.toBytes, if_pos (And.intro h1 h2)]
    rw [Option.some_bind]
    rw [HCI_Packet.fromBytes, if_pos rfl, commandFromBytes, if_pos rfl]
    simp only [leToNat16_split]
    cases hreg : commandClasses opCode with
    | none =>
      simp only [hreg]
    | some accepts =>
      have hacc := hcmd opCode parameters accepts rfl hreg
      simp only [hreg]
      rw [if_pos hacc]
  | event eventCode parameters =>
    obtain ⟨h1, h2, h3, h4⟩ := h
    rw [HCI_Packet.toBytes, if_pos (And.intro h1 h2)]
    rw [Option.some_bind]
    rw [HCI_Packet.fromBytes]
    rw [if_neg (by decide), if_neg (by decide), if_neg (by decide),
      if_pos rfl]
    simp only [eventFromBytes]
    rw [if_pos trivial]
    by_cases hc : eventCode = HCI_LE_META_EVENT
    · rw [if_pos hc]
      cases parameters with
      | nil => exact absurd rfl (h4 hc)
      | cons sub tail =>
        cases hreg : subeventClasses sub with
        | none =>
          simp only [hreg]
        | some accepts =>
          have hacc := hsub (sub :: tail) sub tail accepts
            (by rw [hc]) rfl hreg
          simp only [hreg]
          rw [if_pos hacc]
    · by_cases hv : eventCode = HCI_VENDOR_EVENT
      · rw [if_neg hc, if_pos hv]
      · rw [if_neg hc, if_neg hv]
        cases hreg : eventClasses eventCode with
        | none =>
          simp only [hreg]
        | some accepts =>
          have hacc := hevt eventCode parameters accepts rfl hc hv hreg
          simp only [hreg]
          rw [if_pos hacc]
  | aclData handle pb bc dtl data =>
    obtain ⟨hh, hpb, hbc, hdtl, hlen, hbytes⟩ := h
    rw [HCI_Packet.toBytes]
    rw [header_12_14 pb bc handle hpb hbc hh]
    rw [if_pos (And.intro (by omega) hdtl)]
    rw [Option.some_bind]
    rw [HCI_Packet.fromBytes, if_neg (by decide), if_pos rfl]
    rw [aclDataFromBytes]
    simp only [leToNat16_split]
    rw [if_pos hlen]
    simp only [Option.some.injEq, HCI_Packet.aclData.injEq,
      and_4095_eq_mod, and_3_eq_mod, shiftRight12_eq_div,
      shiftRight14_eq_div]
    exact ⟨by omega, by omega, by omega, trivial, trivial⟩
  | synchronousData handle ps dtl data =>
    obtain ⟨hh, hps, hdtl, hlen, hbytes⟩ := h
    rw [HCI_Packet.toBytes]
    rw [Nat.shiftLeft_eq]
    rw [mul_two_pow_lor_eq_add ps 12 handle (by omega)]
    rw [if_pos (And.intro (by norm_num; omega) hdtl)]
    rw [Option.some_bind]
    rw [HCI_Packet.fromBytes, if_neg (by decide), if_neg (by decide),
      if_pos rfl]
    rw [synchronousDataFromBytes]
    simp only [leToNat16_split]
    rw [if_pos hlen]
    simp only [Option.some.injEq, HCI_Packet.synchronousData.injEq,
      and_4095_eq_mod, and_3_eq_mod, shiftRight12_eq_div]
    exact ⟨by norm_num; omega, by norm_num; omega, trivial, trivial⟩
  | isoData handle dtl frag pb ts timeStamp psn sdul psf =>
    obtain ⟨hh, hpb, hdtl, hts, htslt, hiff1, hiff2, hiff3, hp, hsl,
      hst, hfrag⟩ := h
    have hts2 : ts < 2 := by
      cases timeStamp <;> simp_all
    have hdr : (ts <<< 14) ||| (pb <<< 12) ||| handle =
        ts * 16384 + pb * 4096 + handle :=
      header_14_12 ts pb handle (by omega) hpb hh
    have eHandle : (ts * 16384 + pb * 4096 + handle) &&& 4095 = handle := by
      rw [and_4095_eq_mod]
      omega
    have ePb : ((ts * 16384 + pb * 4096 + handle) >>> 12) &&& 3 = pb := by
      rw [shiftRight12_eq_div, and_3_eq_mod]
      omega
    have eTs : ((ts * 16384 + pb * 4096 + handle) >>> 14) &&& 1 = ts := by
      rw [shiftRight14_eq_div, and_1_eq_mod]
      omega
    simp only [HCI_Packet.toBytes]
    rw [hdr]
    rw [if_pos (And.intro (by omega) hdtl)]
    by_cases hb : pb &&& 1 = 0
    · obtain ⟨p, hpe⟩ := Option.isSome_iff_exists.mp (hiff1.mpr hb)
      obtain ⟨sl, hsle⟩ := Option.isSome_iff_exists.mp (hiff2.mpr hb)
      obtain ⟨st, hste⟩ := Option.isSome_iff_exists.mp (hiff3.mpr hb)
      subst hpe hsle hste
      have hplt : p < 65536 := hp p rfl
      have hsllt : sl < 4096 := hsl sl rfl
      have hstlt : st < 2 := hst st rfl
      have hsdu : sl ||| (st <<< 15) = st * 32768 + sl := by
        rw [Nat.shiftLeft_eq, Nat.lor_comm]
        rw [mul_two_pow_lor_eq_add st 15 sl (by omega)]
        norm_num
      have eSl : (st * 32768 + sl) &&& 4095 = sl := by
        rw [and_4095_eq_mod]
        omega
      have eSt : ((st * 32768 + sl) >>> 15) &&& 1 = st := by
        rw [shiftRight15_eq_div, and_1_eq_mod]
        omega
      cases timeStamp with
      | none =>
        have hts0 : ts = 0 := by simpa using hts
        subst hts0
        simp only [hsdu]
        rw [if_pos (And.intro hplt (by omega))]
        rw [Option.some_bind]
        rw [HCI_Packet.fromBytes, if_neg (by decide), if_neg (by decide),
          if_neg (by decide), if_neg (by decide), if_pos rfl]
        simp only [isoDataFromBytes, leToNat16_split, eHandle, ePb, eTs,
          eSl, eSt, List.cons_append, List.nil_append, hb]
        try norm_num
        try simp only [leToNat16, and_4095_eq_mod, and_3_eq_mod,
          and_1_eq_mod, shiftRight12_eq_div, shiftRight14_eq_div,
          shiftRight15_eq_div]
        all_goals omega
      | some t =>
        have hts1 : ts = 1 := by simpa using hts
        subst hts1
        have htlt : t < 2 ^ 32 := htslt t rfl
        simp only [hsdu]
        rw [if_pos htlt]
        rw [if_pos (And.intro hplt (by omega))]
        rw [Option.some_bind]
        rw [HCI_Packet.fromBytes, if_neg (by decide), if_neg (by decide),
          if_neg (by decide), if_neg (by decide), if_pos rfl]
        simp only [isoDataFromBytes, leToNat16_split, eHandle, ePb, eTs,
          eSl, eSt, List.cons_append, List.nil_append, hb]
        try norm_num
        try simp only [leToNat16, and_4095_eq_mod, and_3_eq_mod,
          and_1_eq_mod, shiftRight12_eq_div, shiftRight14_eq_div,
          shiftRight15_eq_div]
        all_goals omega
    · have hpn : psn = none := by
        cases hpsn : psn with
        | none => rfl
        | some v => exact absurd (hiff1.mp (by rw [hpsn]; rfl)) hb
      have hsln : sdul = none := by
        cases hsdul : sdul with
        | none => rfl
        | some v => exact absurd (hiff2.mp (by rw [hsdul]; rfl)) hb
      have hstn : psf = none := by
        cases hpsf : psf with
        | none => rfl
        | some v => exact absurd (hiff3.mp (by rw [hpsf]; rfl)) hb
      subst hpn hsln hstn
      cases timeStamp with
      | none =>
        have hts0 : ts = 0 := by simpa using hts
        subst hts0
        rw [Option.some_bind]
        rw [HCI_Packet.fromBytes, if_neg (by decide), if_neg (by decide),
          if_neg (by decide), if_neg (by decide), if_pos rfl]
        simp only [isoDataFromBytes, leToNat16_split, eHandle, ePb, eTs,
          List.cons_append, List.nil_append, hb]
        try norm_num
        try simp only [leToNat16, and_4095_eq_mod, and_3_eq_mod,
          and_1_eq_mod, shiftRight12_eq_div, shiftRight14_eq_div,
          shiftRight15_eq_div]
        all_goals omega
      | some t =>
        have hts1 : ts = 1 := by simpa using hts
        subst hts1
        have htlt : t < 2 ^ 32 := htslt t rfl
        simp only [htlt, if_true]
        rw [Option.some_bind]
        rw [HCI_Packet.fromBytes, if_neg (by decide), if_neg (by decide),
          if_neg (by decide), if_neg (by decide), if_pos rfl]
        simp only [isoDataFromBytes, leToNat16_split, eHandle, ePb, eTs,
          List.cons_append, List.nil_append, hb]
        try norm_num
        try simp only [leToNat16, and_4095_eq_mod, and_3_eq_mod,
          and_1_eq_mod, shiftRight12_eq_div, shiftRight14_eq_div,
          shiftRight15_eq_div]
        all_goals omega
  | custom payload =>
    obtain ⟨h1, h2, h3⟩ := h
    rw [HCI_Packet.toBytes]
    rw [Option.some_bind]
    cases payload with
    | nil => exact absurd rfl h1
    | cons t rest =>
      obtain ⟨n1, n2, n3, n4, n5⟩ := h3 t rfl
      rw [HCI_Packet.fromBytes, if_neg n1, if_neg n2, if_neg n3,
        if_neg n4, if_neg n5]

/-- C2 witness: the amended round trip at concrete packets — a registered
command whose parameters decode (opcode 0x2005 with a 6-byte address), an
unregistered command, an LE meta event with an unregistered subevent, a
vendor event, and one packet of each of the ACL, Synchronous, ISO and
Custom kinds. -/
theorem c2_hci_packet_roundtrip_witness :
    ((HCI_Packet.toBytes (.command 0x2005 [1, 2, 3, 4, 5, 6])).bind
      (HCI_Packet.fromBytes sampleCommandClasses emptyClassRegistry
        emptyClassRegistry) =
      some (.command 0x2005 [1, 2, 3, 4, 5, 6])) ∧
    ((HCI_Packet.toBytes (.command 9001 [7])).bind
      (HCI_Packet.fromBytes sampleCommandClasses emptyClassRegistry
        emptyClassRegistry) = some (.command 9001 [7])) ∧
    ((HCI_Packet.toBytes (.event 62 [2, 5])).bind
      (HCI_Packet.fromBytes sampleCommandClasses emptyClassRegistry
        emptyClassRegistry) = some (.event 62 [2, 5])) ∧
    ((HCI_Packet.toBytes (.event 255 [9])).bind
      (HCI_Packet.fromBytes sampleCommandClasses emptyClassRegistry
        emptyClassRegistry) = some (.event 255 [9])) ∧
    ((HCI_Packet.toBytes (.aclData 100 1 2 3 [9, 9, 9])).bind
      (HCI_Packet.fromBytes sampleCommandClasses emptyClassRegistry
        emptyClassRegistry) = some (.aclData 100 1 2 3 [9, 9, 9])) ∧
    ((HCI_Packet.toBytes (.synchronousData 77 2 2 [5, 5])).bind
      (HCI_Packet.fromBytes sampleCommandClasses emptyClassRegistry
        emptyClassRegistry) = some (.synchronousData 77 2 2 [5, 5])) ∧
    ((HCI_Packet.toBytes (.isoData 66 9 [1, 2] 0 1 (some 1000) (some 7)
        (some 2) (some 1))).bind
      (HCI_Packet.fromBytes sampleCommandClasses emptyClassRegistry
        emptyClassRegistry) =
      some (.isoData 66 9 [1, 2] 0 1 (some 1000) (some 7) (some 2)
        (some 1))) ∧
    ((HCI_Packet.toBytes (.custom [9, 1, 2])).bind
      (HCI_Packet.fromBytes sampleCommandClasses emptyClassRegistry
        emptyClassRegistry) = some (.custom [9, 1, 2])) :=
  ⟨c2_hci_packet_roundtrip _ _ _ _
     ⟨by decide, by decide, by decide⟩
     (by
       intro op ps acc heq hreg
       injection heq with e1 e2
       subst e1
       subst e2
       cases Option.some.inj hreg
       decide)
     (by
       intro c ps acc heq
       exact HCI_Packet.noConfusion heq)
     (by
       intro ps sub tail acc heq
       exact HCI_Packet.noConfusion heq),
   c2_hci_packet_roundtrip _ _ _ _
     ⟨by decide, by decide, by decide⟩
     (by
       intro op ps acc heq hreg
       injection heq with e1 e2
       subst e1
       exact Option.noConfusion hreg)
     (by
       intro c ps acc heq
       exact HCI_Packet.noConfusion heq)
     (by
       intro ps sub tail acc heq
       exact HCI_Packet.noConfusion heq),
   c2_hci_packet_roundtrip _ _ _ _
     ⟨by decide, by decide, by decide, fun _ => by decide⟩
     (by
       intro op ps acc heq
       exact HCI_Packet.noConfusion heq)
     (by
       intro c ps acc heq hm hv hreg
       exact Option.noConfusion hreg)
     (by
       intro ps sub tail acc heq hps hreg
       exact Option.noConfusion hreg),
   c2_hci_packet_roundtrip _ _ _ _
     ⟨by decide, by decide, by decide, fun hm => absurd hm (by decide)⟩
     (by
       intro op ps acc heq
       exact HCI_Packet.noConfusion heq)
     (by
       intro c ps acc heq hm hv hreg
       exact Option.noConfusion hreg)
     (by
       intro ps sub tail acc heq hps hreg
       exact Option.noConfusion hreg),
   c2_hci_packet_roundtrip _ _ _ _
     ⟨by decide, by decide, by decide, by decide, by decide, by decide⟩
     (by
       intro op ps acc heq
       exact HCI_Packet.noConfusion heq)
     (by
       intro c ps acc heq
       exact HCI_Packet.noConfusion heq)
     (by
       intro ps sub tail acc heq
       exact HCI_Packet.noConfusion heq),
   c2_hci_packet_roundtrip _ _ _ _
     ⟨by decide, by decide, by decide, by decide, by decide⟩
     (by
       intro op ps acc heq
       exact HCI_Packet.noConfusion heq)
     (by
       intro c ps acc heq
       exact HCI_Packet.noConfusion heq)
     (by
       intro ps sub tail acc heq
       exact HCI_Packet.noConfusion heq),
   c2_hci_packet_roundtrip _ _ _ _
     ⟨by decide, by decide, by decide, by decide,
      by intro t ht; injection ht with h2; subst h2; decide,
      by decide, by decide, by decide,
      by intro p hp2; injection hp2 with h2; subst h2; decide,
      by intro sl h3; injection h3 with h2; subst h2; decide,
      by intro st h3; injection h3 with h2; subst h2; decide,
      by decide⟩
     (by
       intro op ps acc heq
       exact HCI_Packet.noConfusion heq)
     (by
       intro c ps acc heq
       exact HCI_Packet.noConfusion heq)
     (by
       intro ps sub tail acc heq
       exact HCI_Packet.noConfusion heq),
   c2_hci_packet_roundtrip _ _ _ _
     ⟨by decide, by decide,
      by intro t ht; injection ht with h2; subst h2
         exact ⟨by decide, by decide, by decide, by decide, by decide⟩⟩
     (by
       intro op ps acc heq
       exact HCI_Packet.noConfusion heq)
     (by
       intro c ps acc heq
       exact HCI_Packet.noConfusion heq)
     (by
       intro ps sub tail acc heq
       exact HCI_Packet.noConfusion heq)⟩

/-- C2 counterexample: the original claim fails for a registered command
whose parameters do not decode.  The well-formed generic command object
with opcode 0x2005 (`HCI_LE_SET_RANDOM_ADDRESS_COMMAND`) and the 2
parameter bytes [1, 2] serializes fine, but `HCI_Packet.from_bytes`
dispatches to the registered `HCI_LE_Set_Random_Address_Command`, whose
`from_parameters` constructs an `Address` from the 2 bytes and raises
`InvalidArgumentError` (invalid address length, hci.py:2140): parsing the
serialization raises instead of returning an equal packet. -/
theorem c2_registered_command_counterexample :
    wellFormed (HCI_Packet.command 0x2005 [1, 2]) ∧
    ((HCI_Packet.toBytes (HCI_Packet.command 0x2005 [1, 2])).bind
      (HCI_Packet.fromBytes sampleCommandClasses emptyClassRegistry
        emptyClassRegistry) = none) :=
  ⟨⟨by decide, by decide, by decide⟩, by decide⟩

end Bumble.Hci
